import Mathlib

/-
Verification development for the API test-agent core: the JSON field-path
resolvers, the dynamic rule engine, the flow execution context and the
cURL command parser, shallowly embedded from the Python sources
(backend/dynamic_rules.py, backend/flow_context.py, backend/utils.py,
backend/runner.py).

Modelling conventions:
- JSON values are the inductive type Json below.  Python's None and the
  JSON null coincide (json.loads maps null to None), so Json.null plays
  both roles; functions that return "None" in Python return Json.null or
  Option.none here as noted per definition.
- Python ints are Int; response times (floats in Python) are Rat.
- Unicode quirks of Python (str.isdigit accepting superscripts,
  int() accepting underscores between digits or non-ASCII digits) are
  not modelled: digit strings are ASCII [0-9]+ here.
-/

/-- JSON-like values as produced by response.json() in the Python code.
Numbers are modelled as integers: no claim involves fractional JSON
values (response times, which are Python floats, are Rat separately). -/
inductive Json where
  | null
  | bool (b : Bool)
  | num (n : Int)
  | str (s : String)
  | arr (elems : List Json)
  | obj (fields : List (String × Json))

/-- Test for the null value (Python: value is None). -/
def Json.isNull : Json → Bool
  | .null => true
  | _ => false

/-- First-match association-list lookup, the model of Python dict lookup
for objects decoded from JSON (keys are unique after json.loads). -/
def dictGet? : List (String × Json) → String → Option Json
  | [], _ => none
  | (k, v) :: rest, key => if k = key then some v else dictGet? rest key

/-- Python dict assignment d[k] = v: overwrite the existing binding in
place, else append at the end (insertion order preserved). -/
def dictInsert : List (String × Json) → String → Json → List (String × Json)
  | [], key, v => [(key, v)]
  | (k, w) :: rest, key, v =>
    if k = key then (key, v) :: rest else (k, w) :: dictInsert rest key v

/-- Python str.isdigit restricted to ASCII: nonempty and all chars 0-9. -/
def isDigitStr (s : String) : Bool :=
  !s.data.isEmpty && s.data.all Char.isDigit

/-- Numeric value of an ASCII digit string. -/
def digitsVal (l : List Char) : Nat :=
  l.foldl (fun a c => a * 10 + (c.toNat - 48)) 0

/-- Python whitespace (the regex class \s and the str.strip set,
restricted to ASCII). -/
def isWsChar (c : Char) : Bool :=
  c = ' ' || c = '\t' || c = '\n' || c = '\r' || c = '\x0b' || c = '\x0c'

/-- Python str.strip() on the character list (unicode spaces not
modelled). -/
def pyTrim (l : List Char) : List Char :=
  ((l.dropWhile isWsChar).reverse.dropWhile isWsChar).reverse

/-- Python str.lower (characterwise, ASCII). -/
def lowerStr (s : String) : String :=
  String.mk (s.data.map Char.toLower)

/-- Python str.upper (characterwise, ASCII). -/
def upperStr (s : String) : String :=
  String.mk (s.data.map Char.toUpper)

/-- Python str.startswith. -/
def startsWithStr (s pre : String) : Bool :=
  pre.data.isPrefixOf s.data

/-- Python str.endswith. -/
def endsWithStr (s suf : String) : Bool :=
  suf.data.reverse.isPrefixOf s.data.reverse

/-- Python s[:n] (character counted). -/
def takeStr (n : Nat) (s : String) : String :=
  String.mk (s.data.take n)

/-- Python s[n:]. -/
def dropStr (n : Nat) (s : String) : String :=
  String.mk (s.data.drop n)

/-- Python s[:-n]. -/
def dropRightStr (n : Nat) (s : String) : String :=
  String.mk (s.data.take (s.data.length - n))

/-- Python s.split(sep) for one separator character: always at least one
segment, empty segments kept. -/
def splitChars (sep : Char) : List Char → List (List Char)
  | [] => [[]]
  | c :: cs =>
    match splitChars sep cs with
    | [] => [[]]
    | t :: ts => if c = sep then [] :: t :: ts else (c :: t) :: ts

/-- The dot-path segments: Python field_path.split('.'). -/
def splitDot (s : String) : List String :=
  (splitChars '.' s.data).map String.mk

/-- Python s.split(sep, 1): some (before, after) at the first separator
occurrence, none when the separator is absent. -/
def splitFirst (sep : Char) : List Char → Option (List Char × List Char)
  | [] => none
  | c :: cs =>
    if c = sep then some ([], cs)
    else (splitFirst sep cs).map (fun p => (c :: p.1, p.2))

/-- Substring occurrence: needle occurs somewhere in hay. -/
def containsSub (needle : List Char) : List Char → Bool
  | [] => needle.isEmpty
  | c :: cs => needle.isPrefixOf (c :: cs) || containsSub needle cs

/-- Python int(s) on the non-plain-digit forms: optional surrounding
whitespace, an optional sign, then ASCII digits. -/
def pyIntAux : List Char → Option Int
  | [] => none
  | '-' :: ds =>
    if !ds.isEmpty && ds.all Char.isDigit then some (-(digitsVal ds : Int)) else none
  | '+' :: ds =>
    if !ds.isEmpty && ds.all Char.isDigit then some (digitsVal ds : Int) else none
  | ds =>
    if ds.all Char.isDigit then some (digitsVal ds : Int) else none

/-- Python int(s) for strings: a plain digit string parses directly;
otherwise whitespace is stripped and one sign character is allowed.
(Underscore separators and non-ASCII digits are not modelled.) -/
def pyInt (s : String) : Option Int :=
  if isDigitStr s then some (digitsVal s.data : Int) else pyIntAux (pyTrim s.data)

/-- Loop body of get_nested_field (backend/dynamic_rules.py lines 119-139):
walk the remaining dot-path segments; the Bool is the found flag, and the
value is Json.null (Python None) whenever found is false. -/
def fieldLoop : Json → List String → Json × Bool
  | current, [] => (current, true)
  | current, part :: rest =>
    if current.isNull then (Json.null, false)
    else if isDigitStr part then
      match current with
      | .arr xs =>
        match xs.get? (digitsVal part.data) with
        | some x => fieldLoop x rest
        | none => (Json.null, false)
      | _ => (Json.null, false)
    else
      match current with
      | .obj kvs =>
        match dictGet? kvs part with
        | some v => fieldLoop v rest
        | none => (Json.null, false)
      | _ => (Json.null, false)

/-- get_nested_field (backend/dynamic_rules.py lines 102-139): resolve a
dot-separated path, returning (value, found).  An empty path or a null
root reports not found immediately. -/
def get_nested_field (data : Json) (field_path : String) : Json × Bool :=
  if field_path = "" || data.isNull then (Json.null, false)
  else fieldLoop data (splitDot field_path)

/-- Loop body of get_nested_value (backend/flow_context.py lines 149-166).
On a list, the segment goes through int(); parse failure returns None at
once, an out-of-bounds or negative index sets the cursor to None and the
loop continues.  On a dict, dict.get yields the value or None.  Python's
single None is Json.null here. -/
def valueLoop : Json → List String → Json
  | current, [] => current
  | current, key :: rest =>
    if current.isNull then Json.null
    else
      match current with
      | .arr xs =>
        match pyInt key with
        | some n =>
          valueLoop (if n < 0 then Json.null else ((xs.get? n.toNat).getD Json.null)) rest
        | none => Json.null
      | .obj kvs => valueLoop ((dictGet? kvs key).getD Json.null) rest
      | _ => Json.null

/-- get_nested_value (backend/flow_context.py lines 127-166): resolve a
dot-separated path, returning the value or None (Json.null). -/
def get_nested_value (data : Json) (path : String) : Json :=
  if data.isNull then Json.null
  else valueLoop data (splitDot path)

mutual

/-- No object anywhere in the tree has an all-digit key (the side
condition under which the two resolvers agree). -/
def noDigitKeys : Json → Bool
  | .null => true
  | .bool _ => true
  | .num _ => true
  | .str _ => true
  | .arr xs => noDigitKeysList xs
  | .obj kvs => noDigitKeysObj kvs

/-- noDigitKeys over the elements of an array. -/
def noDigitKeysList : List Json → Bool
  | [] => true
  | x :: xs => noDigitKeys x && noDigitKeysList xs

/-- noDigitKeys over the fields of an object, also requiring every key
to not be all-digit. -/
def noDigitKeysObj : List (String × Json) → Bool
  | [] => true
  | (k, v) :: kvs => !isDigitStr k && noDigitKeys v && noDigitKeysObj kvs

end

mutual

/-- Python repr of a JSON-decoded value, used by str() on lists/dicts.
Strings render between single quotes; the escaping Python repr applies to
quotes and control characters inside strings is not modelled (no claim
inspects such output). -/
def pyRepr : Json → String
  | .null => "None"
  | .bool true => "True"
  | .bool false => "False"
  | .num n => toString n
  | .str s => "'" ++ s ++ "'"
  | .arr xs => "[" ++ pyReprList xs ++ "]"
  | .obj kvs => "\x7b" ++ pyReprObj kvs ++ "\x7d"

/-- Comma-joined reprs of list elements. -/
def pyReprList : List Json → String
  | [] => ""
  | [x] => pyRepr x
  | x :: y :: xs => pyRepr x ++ ", " ++ pyReprList (y :: xs)

/-- Comma-joined reprs of dict entries. -/
def pyReprObj : List (String × Json) → String
  | [] => ""
  | [(k, v)] => "'" ++ k ++ "': " ++ pyRepr v
  | (k, v) :: kv :: kvs => "'" ++ k ++ "': " ++ pyRepr v ++ ", " ++ pyReprObj (kv :: kvs)

end

/-- Python str() of a JSON-decoded value: identity on strings, True/False
on booleans, None on null, repr on containers. -/
def pyStr : Json → String
  | .null => "None"
  | .bool true => "True"
  | .bool false => "False"
  | .num n => toString n
  | .str s => s
  | .arr xs => pyRepr (.arr xs)
  | .obj kvs => pyRepr (.obj kvs)

/-- Minimal JSON string escaping for json.dumps: backslash and double
quote (control-character escapes are not modelled; no claim uses them). -/
def jsonEscape (s : String) : String :=
  String.mk (s.data.flatMap (fun c =>
    if c = '\\' then ['\\', '\\']
    else if c = '"' then ['\\', '"']
    else [c]))

mutual

/-- json.dumps with Python's default separators (", " and ": "), as used
by inject_variables for dict/list values. -/
def jsonDumps : Json → String
  | .null => "null"
  | .bool true => "true"
  | .bool false => "false"
  | .num n => toString n
  | .str s => "\"" ++ jsonEscape s ++ "\""
  | .arr xs => "[" ++ jsonDumpsList xs ++ "]"
  | .obj kvs => "\x7b" ++ jsonDumpsObj kvs ++ "\x7d"

/-- Comma-joined dumps of array elements. -/
def jsonDumpsList : List Json → String
  | [] => ""
  | [x] => jsonDumps x
  | x :: y :: xs => jsonDumps x ++ ", " ++ jsonDumpsList (y :: xs)

/-- Comma-joined dumps of object entries. -/
def jsonDumpsObj : List (String × Json) → String
  | [] => ""
  | [(k, v)] => "\"" ++ jsonEscape k ++ "\": " ++ jsonDumps v
  | (k, v) :: kv :: kvs =>
    "\"" ++ jsonEscape k ++ "\": " ++ jsonDumps v ++ ", " ++ jsonDumpsObj (kv :: kvs)

end

mutual

/-- Python == between JSON-decoded values: booleans compare numerically
with numbers (True == 1, False == 0), lists compare pointwise, dicts
compare as key-value sets (keys are unique after json.loads), values of
different kinds otherwise compare unequal. -/
def pyEq : Json → Json → Bool
  | .null, .null => true
  | .bool a, .bool b => a == b
  | .bool a, .num m => (if a then (1 : Int) else 0) == m
  | .num n, .bool b => n == (if b then (1 : Int) else 0)
  | .num n, .num m => n == m
  | .str a, .str b => a == b
  | .arr a, .arr b => a.length == b.length && pyEqList a b
  | .obj a, .obj b => a.length == b.length && pyEqObj a b
  | _, _ => false

/-- Pairwise equality of list elements (the lengths are checked by the
caller, exactly the semantics of Python list ==). -/
def pyEqList : List Json → List Json → Bool
  | [], _ => true
  | _ :: _, [] => false
  | x :: xs, y :: ys => pyEq x y && pyEqList xs ys

/-- Every entry of the first dict appears equal in the second (with the
length check in the caller this is Python dict ==, keys being unique). -/
def pyEqObj : List (String × Json) → List (String × Json) → Bool
  | [], _ => true
  | (k, v) :: kvs, b =>
    (match dictGet? b k with
     | some w => pyEq v w
     | none => false) && pyEqObj kvs b

end

/-- get_type_name (backend/dynamic_rules.py lines 142-157): JSON type name
of a value; booleans are tested before numbers, so they are never
reported as "number". -/
def get_type_name : Json → String
  | .null => "null"
  | .bool _ => "boolean"
  | .num _ => "number"
  | .str _ => "string"
  | .arr _ => "array"
  | .obj _ => "object"

/-- Interpolation of an optional string into an f-string (Python prints
None for an absent value). -/
def optStr : Option String → String
  | some s => s
  | none => "None"

/-- Numeric reading Python's comparison operators apply directly:
numbers and booleans (True is 1, False is 0); anything else raises
TypeError when compared with a float. -/
def asNumber : Json → Option Rat
  | .num n => some (n : Rat)
  | .bool b => some (if b then 1 else 0)
  | _ => none

/-- Python float(s) on strings: optional surrounding whitespace and sign,
then a decimal literal (digits, or digits on either side of one point).
Exponents, inf and nan are not modelled; no claim exercises them. -/
def pyFloatStr (s : String) : Option Rat :=
  let t := pyTrim s.data
  let sd : Rat × List Char :=
    match t with
    | '-' :: r => (-1, r)
    | '+' :: r => (1, r)
    | r => (1, r)
  let ip := sd.2.takeWhile Char.isDigit
  let rest := sd.2.dropWhile Char.isDigit
  match rest with
  | [] => if ip.isEmpty then none else some (sd.1 * (digitsVal ip : Rat))
  | '.' :: fp =>
    if fp.all Char.isDigit && (!ip.isEmpty || !fp.isEmpty) then
      some (sd.1 * ((digitsVal ip : Rat) + (digitsVal fp : Rat) / ((10 : Rat) ^ fp.length)))
    else none
  | _ => none

/-- Python float(value) on a JSON-decoded value: numbers and booleans
convert, strings parse, everything else raises (None here). -/
def pyFloat : Json → Option Rat
  | .num n => some (n : Rat)
  | .bool b => some (if b then 1 else 0)
  | .str s => pyFloatStr s
  | _ => none

/-- Substring test (Python: needle in hay). -/
def strContains (hay needle : String) : Bool :=
  containsSub needle.data hay.data

/-- Placeholder for Python re.search in the regex branch of
custom_expression, modelled as a plain substring probe; the re.error
(invalid pattern) path is likewise not modelled.  No claim exercises
this branch. -/
def regexSearch (pattern s : String) : Bool :=
  containsSub pattern.data s.data

/-- The quote stripping evaluate_rule applies to custom_expression's
configured expected value (a matching leading/trailing quote pair). -/
def stripQuotes (s : String) : String :=
  if startsWithStr s "\"" && endsWithStr s "\"" then dropRightStr 1 (dropStr 1 s)
  else if startsWithStr s "'" && endsWithStr s "'" then dropRightStr 1 (dropStr 1 s)
  else s

/-- Display names of the RULE_TYPES registry (backend/dynamic_rules.py
lines 19-99). -/
def registryName : String → Option String
  | "status_code" => some "Status Code (e.g., 200, 404, 500)"
  | "response_time" => some "Response Time (e.g., < 2000ms)"
  | "field_exists" => some "Field Exists (e.g., data.id exists)"
  | "field_not_null" => some "Field Not Null (e.g., data.id != null)"
  | "field_type" => some "Field Type (e.g., data.count is number)"
  | "success_flag" => some "Boolean Check (e.g., success == true)"
  | "custom_expression" => some "Custom Compare (e.g., data.status == 'active')"
  | _ => none

/-- Rule categories of the RULE_TYPES registry. -/
def registryCategory : String → Option String
  | "status_code" => some "functional"
  | "response_time" => some "performance"
  | "field_exists" => some "structural"
  | "field_not_null" => some "structural"
  | "field_type" => some "structural"
  | "success_flag" => some "functional"
  | "custom_expression" => some "functional"
  | _ => none

/-- A rule configuration dict as read by evaluate_rule via rule.get.
Absent keys are none; enabled is a boolean when present (RuleConfig's
data model). -/
structure Rule where
  id : Option Json := none
  type : Option String := none
  field : Option String := none
  config : List (String × Json) := []
  enabled : Option Bool := none

/-- The result dict evaluate_rule builds.  expected/actual are the
display strings; a non-string value landing in expected (possible only
for field_type's raw config echo) is stored stringified, a display-only
simplification that leaves verdicts and reasons unchanged. -/
structure RuleResult where
  rule_id : Option Json
  rule_name : Option String
  rule_type : String
  field : Option String
  result : String
  reason : Option String
  expected : String
  actual : String

/-- RULE_TYPES.get(rule_type, {}).get('name', rule_type). -/
def resultRuleName : Option String → Option String
  | some s => some ((registryName s).getD s)
  | none => none

/-- RULE_TYPES.get(rule_type, {}).get('ruleType', 'functional'). -/
def resultRuleType : Option String → String
  | some s => (registryCategory s).getD "functional"
  | none => "functional"

/-- get_nested_field as called with rule.get('field'): a None field is
falsy, so the resolver reports not found. -/
def getNestedFieldOpt (response : Json) : Option String → Json × Bool
  | some f => get_nested_field response f
  | none => (Json.null, false)

/-- The except-branch of evaluate_rule (backend/dynamic_rules.py lines
339-342): an internal exception becomes a FAIL result.  Python
interpolates str(e); that interpreter-supplied text is abstracted as the
msg argument here. -/
def evalErrorResult (base : RuleResult) (msg : String) : RuleResult :=
  { base with
    result := "FAIL",
    reason := some ("Rule evaluation error: " ++ msg),
    expected := "Successful evaluation",
    actual := "Error: " ++ msg }

/-- evaluate_rule (backend/dynamic_rules.py lines 160-344): evaluate one
rule configuration against (response, response_time_ms, status_code),
total over the elif chain, with the unknown-type fallback and the
caught-exception conversions in place. -/
def evaluate_rule (rule : Rule) (response : Json) (response_time_ms : Rat)
    (status_code : Int) : RuleResult :=
  let rule_type := rule.type
  let field := rule.field
  let config := rule.config
  let base : RuleResult :=
    { rule_id := rule.id
      rule_name := resultRuleName rule_type
      rule_type := resultRuleType rule_type
      field := field,
      result := "FAIL",
      reason := none,
      expected := "",
      actual := "" }
  if rule_type = some "status_code" then
    let expected_status := (dictGet? config "expectedStatus").getD (Json.num 200)
    let b := { base with expected := pyStr expected_status, actual := toString status_code }
    if pyEq (Json.num status_code) expected_status then { b with result := "PASS" }
    else
      { b with
          reason := some ("Expected status " ++ pyStr expected_status ++
          ", got " ++ toString status_code) }
  else if rule_type = some "success_flag" then
    let expected_value := (dictGet? config "expectedValue").getD (Json.bool true)
    let vf := getNestedFieldOpt response field
    let b := { base with
      expected := lowerStr (pyStr expected_value),
      actual := if vf.2 then lowerStr (pyStr vf.1) else "field not found" }
    if !vf.2 then { b with reason := some ("Field '" ++ optStr field ++ "' not found") }
    else if pyEq vf.1 expected_value then { b with result := "PASS" }
    else
      { b with
          reason := some ("Expected " ++ pyStr expected_value ++
          ", got " ++ pyStr vf.1) }
  else if rule_type = some "field_exists" then
    let vf := getNestedFieldOpt response field
    let b := { base with expected := "'" ++ optStr field ++ "' exists" }
    if vf.2 then
      let shown :=
        match vf.1 with
        | .null => "Found (null)"
        | .str s => "Found: \"" ++ (if s.length > 50 then takeStr 50 s ++ "..." else s) ++ "\""
        | .arr xs => "Found: " ++ get_type_name (.arr xs) ++ " (" ++ toString xs.length ++ " items)"
        | .obj kvs => "Found: " ++ get_type_name (.obj kvs) ++ " (" ++ toString kvs.length ++ " items)"
        | v => "Found: " ++ pyStr v
      { b with result := "PASS", actual := shown }
    else
      { b with
          actual := "Not found",
          reason := some ("Field '" ++ optStr field ++ "' does not exist") }
  else if rule_type = some "field_not_null" then
    let vf := getNestedFieldOpt response field
    let b := { base with expected := "Not null/empty" }
    if !vf.2 then
      { b with
          actual := "Field not found",
          reason := some ("Field '" ++ optStr field ++ "' does not exist") }
    else
      match vf.1 with
      | .null =>
        { b with actual := "null", reason := some ("Field '" ++ optStr field ++ "' is null") }
      | .str s =>
        if (pyTrim s.data).length = 0 then
          { b with
              actual := "empty string",
              reason := some ("Field '" ++ optStr field ++ "' is empty") }
        else
          { b with
              result := "PASS",
              actual := "\"" ++ takeStr 50 s ++ (if s.length > 50 then "..." else "") ++ "\"" }
      | .arr xs =>
        if xs.length = 0 then
          { b with
              actual := "empty " ++ get_type_name (.arr xs),
              reason := some ("Field '" ++ optStr field ++ "' is empty") }
        else { b with result := "PASS", actual := get_type_name (.arr xs) ++ " with value" }
      | .obj kvs =>
        if kvs.length = 0 then
          { b with
              actual := "empty " ++ get_type_name (.obj kvs),
              reason := some ("Field '" ++ optStr field ++ "' is empty") }
        else { b with result := "PASS", actual := get_type_name (.obj kvs) ++ " with value" }
      | v => { b with result := "PASS", actual := get_type_name v ++ " with value" }
  else if rule_type = some "field_type" then
    let expected_type := (dictGet? config "expectedType").getD (Json.str "string")
    let vf := getNestedFieldOpt response field
    let b := { base with expected := pyStr expected_type }
    if !vf.2 then
      { b with
          actual := "Field not found",
          reason := some ("Field '" ++ optStr field ++ "' does not exist") }
    else
      let actual_type := get_type_name vf.1
      let b2 := { b with actual := actual_type }
      if pyEq (Json.str actual_type) expected_type then { b2 with result := "PASS" }
      else
        { b2 with
            reason := some ("Expected " ++ pyStr expected_type ++
            ", got " ++ actual_type) }
  else if rule_type = some "response_time" then
    let max_ms := (dictGet? config "maxMs").getD (Json.num 2000)
    match asNumber max_ms with
    | some m =>
      -- int(response_time_ms): truncation equals floor for the
      -- nonnegative elapsed times the runner measures
      let b := { base with
        expected := "<= " ++ pyStr max_ms ++ "ms",
        actual := toString response_time_ms.floor ++ "ms" }
      if response_time_ms ≤ m then { b with result := "PASS" }
      else
        { b with
            reason := some ("Response time " ++ toString response_time_ms.floor ++
            "ms exceeds " ++ pyStr max_ms ++ "ms") }
    | none => evalErrorResult base "TypeError"
  else if rule_type = some "custom_expression" then
    let operatorJ := (dictGet? config "operator").getD (Json.str "equals")
    let expectedJ := (dictGet? config "expectedValue").getD (Json.str "")
    match expectedJ with
    | .str ev0 =>
      let operator := pyStr operatorJ
      let expected_value := stripQuotes ev0
      let vf := getNestedFieldOpt response field
      let b := { base with expected := operator ++ " \"" ++ expected_value ++ "\"" }
      if !vf.2 then
        { b with
            actual := "Field not found",
            reason := some ("Field '" ++ optStr field ++ "' does not exist") }
      else
        let actual_str := if vf.1.isNull then "null" else pyStr vf.1
        let b2 := { b with actual := takeStr 100 actual_str }
        let pr : Bool × Option String :=
          if operator = "equals" then (pyStr vf.1 == expected_value, none)
          else if operator = "not_equals" then (!(pyStr vf.1 == expected_value), none)
          else if operator = "contains" then (strContains (pyStr vf.1) expected_value, none)
          else if operator = "greater_than" then
            match pyFloat vf.1, pyFloatStr expected_value with
            | some a, some c => (a > c, none)
            | _, _ => (false, some "Cannot compare non-numeric values")
          else if operator = "less_than" then
            match pyFloat vf.1, pyFloatStr expected_value with
            | some a, some c => (a < c, none)
            | _, _ => (false, some "Cannot compare non-numeric values")
          else if operator = "regex" then (regexSearch expected_value (pyStr vf.1), none)
          else (false, none)
        if pr.1 then { b2 with result := "PASS" }
        else
          match pr.2 with
          | some r => { b2 with reason := some r }
          | none =>
            { b2 with
                reason := some ("Value '" ++ takeStr 50 actual_str ++
                "' does not match " ++ operator ++ " '" ++ expected_value ++ "'") }
    | _ => evalErrorResult base "AttributeError"
  else
    { base with
      reason := some ("Unknown rule type: " ++ optStr rule_type),
      expected := "Valid rule",
      actual := "Unknown rule type" }

/-- apply_dynamic_rules (backend/dynamic_rules.py lines 347-367): run the
enabled rules in order, appending one result per rule. -/
def apply_dynamic_rules (rules : List Rule) (response : Json)
    (response_time_ms : Rat) (status_code : Int) : List RuleResult :=
  rules.foldl
    (fun results rule =>
      if rule.enabled.getD true then
        results ++ [evaluate_rule rule response response_time_ms status_code]
      else results)
    []

/-- First character class of the placeholder pattern: [a-zA-Z_]. -/
def isIdentStart (c : Char) : Bool :=
  c.isAlpha || c == '_'

/-- Remaining character class of the placeholder pattern: [a-zA-Z0-9_]. -/
def isIdentChar (c : Char) : Bool :=
  c.isAlphanum || c == '_'

/-- Attempt to complete a placeholder match just after an opening pair of
braces: an identifier followed by a closing pair of braces, exactly the
regex of flow_context.py line 71 (greedy matching is exact here because
the identifier class excludes braces). -/
def placeholderMatch : List Char → Option (String × List Char)
  | [] => none
  | c :: cs =>
    if isIdentStart c then
      match cs.dropWhile isIdentChar with
      | '}' :: '}' :: rest => some (String.mk (c :: cs.takeWhile isIdentChar), rest)
      | _ => none
    else none

/-- One unit of re.sub/re.findall output for the placeholder pattern:
either a literal character outside any match, or a matched variable name.
The scan is left to right with non-overlapping matches, retrying one
character further on a failed attempt, exactly as the re engine does. -/
inductive Tok where
  | lit (c : Char)
  | phvar (name : String)

/-- Fuelled scan: each step consumes at least one character (a match
consumes at least four), so fuel equal to the input length never runs
out - the fuel-zero arm is unreachable and present only to make the
recursion structural. -/
def tokenizePHF : Nat → List Char → List Tok
  | 0, _ => []
  | fuel + 1, l =>
    match l with
    | '{' :: '{' :: rest =>
      (match placeholderMatch rest with
       | some nr => .phvar nr.1 :: tokenizePHF fuel nr.2
       | none => .lit '{' :: tokenizePHF fuel ('{' :: rest))
    | c :: cs => .lit c :: tokenizePHF fuel cs
    | [] => []

/-- Tokenize a template into literal characters and placeholder names. -/
def tokenizePH (l : List Char) : List Tok :=
  tokenizePHF l.length l

/-- The placeholder names of a token stream, in order, duplicates kept. -/
def toksVars : List Tok → List String
  | [] => []
  | .lit _ :: ts => toksVars ts
  | .phvar n :: ts => n :: toksVars ts

/-- Variable occurrences in template order, duplicates kept
(re.findall on the placeholder pattern). -/
def findVarsAll (text : String) : List String :=
  toksVars (tokenizePH text.data)

/-- Order-preserving deduplication (first occurrence kept). -/
def dedupAcc (seen : List String) : List String → List String
  | [] => []
  | x :: xs => if seen.contains x then dedupAcc seen xs else x :: dedupAcc (x :: seen) xs

/-- find_variables_in_text (backend/flow_context.py lines 186-198):
list(set(matches)).  Python's set iteration order is unspecified; the
first-occurrence order is used here, membership is identical. -/
def find_variables_in_text (text : String) : List String :=
  dedupAcc [] (findVarsAll text)

/-- ExecutionContext.has on the context's variable dict. -/
def ctxHas (ctx : List (String × Json)) (nm : String) : Bool :=
  (dictGet? ctx nm).isSome

/-- validate_variables_in_text (backend/flow_context.py lines 169-183):
(valid, missing names). -/
def validate_variables_in_text (text : String) (ctx : List (String × Json)) :
    Bool × List String :=
  let missing := (findVarsAll text).filter (fun v => !ctxHas ctx v)
  (missing.isEmpty, missing)

/-- The replacer's value rendering (backend/flow_context.py lines 78-85):
strings pass through, dicts and lists serialize via json.dumps, anything
else via str(). -/
def injectRender : Json → String
  | .str s => s
  | .arr xs => jsonDumps (.arr xs)
  | .obj kvs => jsonDumps (.obj kvs)
  | v => pyStr v

/-- One token of the substitution: a literal character stays, a variable
renders from the context or raises ValueError (the Except error) with
the message of flow_context.py line 76. -/
def renderTok (ctx : List (String × Json)) : Tok → Except String String
  | .lit c => .ok (String.singleton c)
  | .phvar n =>
    match dictGet? ctx n with
    | some v => .ok (injectRender v)
    | none => .error ("Variable '" ++ n ++ "' not found in execution context")

/-- Substitution over the token stream, left to right: the first error
aborts with no text produced (Python raises out of re.sub). -/
def renderToks (ctx : List (String × Json)) : List Tok → Except String String
  | [] => .ok ""
  | t :: ts =>
    match renderTok ctx t with
    | .error e => .error e
    | .ok s =>
      match renderToks ctx ts with
      | .error e => .error e
      | .ok s2 => .ok (s ++ s2)

/-- inject_variables (backend/flow_context.py lines 57-87): substitute
every placeholder left to right; the first unresolved variable raises,
so no partially substituted text is ever produced. -/
def inject_variables (text : String) (ctx : List (String × Json)) :
    Except String String :=
  renderToks ctx (tokenizePH text.data)

/-- One extraction rule as read via rule.get('path', '') and
rule.get('variable', ''); "variable" is a Lean keyword, hence varName. -/
structure ExtractRule where
  path : String := ""
  varName : String := ""

/-- extract_from_response (backend/flow_context.py lines 90-124): resolve
each rule's path with get_nested_value; rules with an empty path or
variable name are skipped, and only non-None values are stored. -/
def extractLoop (response_json : Json) (acc : List (String × Json)) :
    List ExtractRule → List (String × Json)
  | [] => acc
  | rule :: rest =>
    if rule.path = "" ∨ rule.varName = "" then extractLoop response_json acc rest
    else if (get_nested_value response_json rule.path).isNull then
      extractLoop response_json acc rest
    else
      extractLoop response_json
        (dictInsert acc rule.varName (get_nested_value response_json rule.path)) rest

/-- extract_from_response starts from the empty dict. -/
def extract_from_response (response_json : Json)
    (extract_rules : List ExtractRule) : List (String × Json) :=
  extractLoop response_json [] extract_rules

/-- The request descriptor parse_curl builds (backend/utils.py lines
18-24). -/
structure CurlRequest where
  method : String := "GET"
  url : Option String := none
  headers : List (String × String) := []
  data : Option String := none
  verify_ssl : Bool := true

/-- Python dict assignment for the string-valued header map (last write
wins, insertion order kept). -/
def headInsert : List (String × String) → String → String → List (String × String)
  | [], key, v => [(key, v)]
  | (k, w) :: rest, key, v =>
    if k = key then (key, v) :: rest else (k, w) :: headInsert rest key v

/-- The flags of backend/utils.py line 89-91 that are skipped outright. -/
def skipFlags : List String :=
  ["-v", "--verbose", "-s", "--silent", "-S", "--show-error",
   "-L", "--location", "-i", "--include", "-o", "--output",
   "-w", "--write-out", "-c", "--cookie-jar", "-b", "--cookie"]

/-- The subset of skipFlags that consumes the following token
(backend/utils.py line 93). -/
def skipArgFlags : List String :=
  ["-o", "--output", "-w", "--write-out", "-c", "--cookie-jar", "-b", "--cookie"]

/-- One iteration of the while loop of parse_curl (backend/utils.py
lines 42-117): consume the head token (and possibly its argument),
returning the updated descriptor and the remaining tokens.  A flag that
expects an argument but sits at the end of the list falls through to the
plain i += 1 advance, i.e. it is ignored. -/
def parseStep (st : CurlRequest) (t : String) (rest : List String) :
    CurlRequest × List String :=
  if t = "-X" || t = "--request" then
    match rest with
    | v :: rest2 => ({ st with method := upperStr v }, rest2)
    | [] => (st, [])
  else if t = "-H" || t = "--header" then
    match rest with
    | h :: rest2 =>
      (match splitFirst ':' h.data with
       | some kv =>
         ({ st with
              headers := headInsert st.headers (String.mk (pyTrim kv.1))
                (String.mk (pyTrim kv.2)) }, rest2)
       | none => (st, rest2))
    | [] => (st, [])
  else if t = "-d" || t = "--data" || t = "--data-raw" || t = "--data-binary" then
    match rest with
    | v :: rest2 =>
      ({ st with
           data := some v,
           method := if st.method = "GET" then "POST" else st.method }, rest2)
    | [] => (st, [])
  else if t = "--json" then
    match rest with
    | v :: rest2 =>
      ({ st with
           data := some v,
           headers := headInsert st.headers "Content-Type" "application/json",
           method := if st.method = "GET" then "POST" else st.method }, rest2)
    | [] => (st, [])
  else if t = "-k" || t = "--insecure" then
    ({ st with verify_ssl := false }, rest)
  else if t ∈ skipFlags then
    if t ∈ skipArgFlags then (st, rest.tail) else (st, rest)
  else if t = "-A" || t = "--user-agent" then
    match rest with
    | v :: rest2 => ({ st with headers := headInsert st.headers "User-Agent" v }, rest2)
    | [] => (st, [])
  else if !startsWithStr t "-" then
    if startsWithStr t "http://" || startsWithStr t "https://" || t.data.contains '.' then
      ({ st with
           url := some (if startsWithStr t "http://" || startsWithStr t "https://" then t
                        else "https://" ++ t) }, rest)
    else (st, rest)
  else (st, rest)

/-- The token loop of parse_curl: iterate parseStep.  The loop is
fuelled to keep the recursion structural; each step consumes at least
one token, so fuel equal to the token count never runs out and the
fuel-zero arm is unreachable. -/
def parseLoop : Nat → CurlRequest → List String → CurlRequest
  | _, st, [] => st
  | 0, st, _ :: _ => st
  | fuel + 1, st, t :: rest =>
    parseLoop fuel (parseStep st t rest).1 (parseStep st t rest).2

/-- The line-continuation rewrite of backend/utils.py line 30, fuelled
(fuel equal to the input length suffices; every step consumes at least
one character): each backslash followed by whitespace containing a
newline collapses, with the whitespace run, into one space (the regex's
greedy tails make the match exactly the backslash plus the whole
whitespace run). -/
def joinContinuationsF : Nat → List Char → List Char
  | 0, _ => []
  | fuel + 1, l =>
    match l with
    | [] => []
    | '\\' :: rest =>
      if '\n' ∈ rest.takeWhile isWsChar then
        ' ' :: joinContinuationsF fuel (rest.dropWhile isWsChar)
      else '\\' :: joinContinuationsF fuel rest
    | c :: cs => c :: joinContinuationsF fuel cs

/-- The line-continuation rewrite on a character list. -/
def joinContinuations (l : List Char) : List Char :=
  joinContinuationsF l.length l

/-- Tokenizer state for the shlex model: outside quotes, inside single
quotes, or inside double quotes. -/
inductive ShMode where
  | normal
  | single
  | double

/-- Model of shlex.split in POSIX mode as used by parse_curl: whitespace
separates tokens, single quotes are literal, double quotes allow
backslash escapes of the double quote and the backslash (other
backslashes are kept), a bare backslash escapes the next character, and
an unbalanced construct is a ValueError. -/
def shlexGo : Nat → List Char → ShMode → Option (List Char) → Except String (List String)
  | _, [], .normal, cur =>
    .ok (match cur with | some tk => [String.mk tk.reverse] | none => [])
  | _, [], .single, _ => .error "No closing quotation"
  | _, [], .double, _ => .error "No closing quotation"
  | 0, _ :: _, _, _ => .error "fuel exhausted (unreachable: fuel is the input length)"
  | fuel + 1, c :: cs, .normal, cur =>
    if c = ' ' || c = '\t' || c = '\r' || c = '\n' then
      match cur with
      | some tk => (shlexGo fuel cs .normal none).map (fun ts => String.mk tk.reverse :: ts)
      | none => shlexGo fuel cs .normal none
    else if c = '\'' then shlexGo fuel cs .single (some (cur.getD []))
    else if c = '"' then shlexGo fuel cs .double (some (cur.getD []))
    else if c = '\\' then
      match cs with
      | d :: cs2 => shlexGo fuel cs2 .normal (some (d :: cur.getD []))
      | [] => .error "No escaped character"
    else shlexGo fuel cs .normal (some (c :: cur.getD []))
  | fuel + 1, c :: cs, .single, cur =>
    if c = '\'' then shlexGo fuel cs .normal cur
    else shlexGo fuel cs .single (some (c :: cur.getD []))
  | fuel + 1, c :: cs, .double, cur =>
    if c = '"' then shlexGo fuel cs .normal cur
    else if c = '\\' then
      match cs with
      | d :: cs2 =>
        if d = '"' || d = '\\' then shlexGo fuel cs2 .double (some (d :: cur.getD []))
        else shlexGo fuel cs2 .double (some (d :: '\\' :: cur.getD []))
      | [] => .error "No closing quotation"
    else shlexGo fuel cs .double (some (c :: cur.getD []))
/-- shlex.split on a string (fuel equal to the input length suffices:
every step consumes at least one character). -/
def shlexSplit (s : String) : Except String (List String) :=
  shlexGo s.data.length s.data .normal none

/-- parse_curl (backend/utils.py lines 11-122): strip, join continued
lines, drop a leading case-insensitive curl keyword, tokenize, run the
flag loop, and fail when no URL was seen. -/
def parse_curl (curl_command : String) : Except String CurlRequest :=
  let c1 := String.mk (pyTrim curl_command.data)
  let c2 := String.mk (joinContinuations c1.data)
  let c3 :=
    if startsWithStr (lowerStr c2) "curl" then String.mk (pyTrim (dropStr 4 c2).data)
    else c2
  match shlexSplit c3 with
  | .error e => .error ("Failed to parse cURL command: " ++ e)
  | .ok tokens =>
    let r := parseLoop tokens.length {} tokens
    match r.url with
    | none => .error "No URL found in cURL command"
    | some _ => .ok r

/-- The slice of run_test_pipeline's result dict (backend/runner.py lines
249-261) that run_flow_pipeline reads.  run_test_pipeline performs
network and file I/O, so the flow embedding abstracts it as a function
producing this record; Python's None for response_json coincides with
Json.null as everywhere in this file. -/
structure TestResult where
  success : Bool := false
  execution_id : String := ""
  rule_results : List RuleResult := []
  report_paths : List (String × String) := []
  error : Option String := none
  status_code : Option Int := none
  response_time_ms : Option Rat := none
  response_json : Json := Json.null

/-- One flow step configuration as read by run_flow_pipeline via
step.get (backend/runner.py lines 410-448). -/
structure FlowStep where
  id : Option Json := none
  name : Option String := none
  curl : String := ""
  customRules : List Rule := []
  extractRules : List ExtractRule := []

/-- The per-step result dict of backend/runner.py lines 411-421,
together with the two keys added on the executed path (lines 439-440):
executionId and reportPaths are absent when injection fails. -/
structure StepResult where
  stepIndex : Nat
  apiId : Option Json
  apiName : String
  success : Bool
  statusCode : Option Int
  responseTimeMs : Option Rat
  ruleResults : List RuleResult
  extractedVars : List (String × Json)
  error : Option String
  executionId : Option String
  reportPaths : Option (List (String × String))

/-- One entry of the flow's errors list (backend/runner.py line 445). -/
structure FlowError where
  step : Nat
  apiName : Option String
  error : String

/-- The dict run_flow_pipeline returns (backend/runner.py lines 470-477). -/
structure FlowResult where
  success : Bool
  results : List StepResult
  executionContext : List (String × Json)
  errors : List FlowError
  totalSteps : Nat
  completedSteps : Nat

/-- Python truthiness of the optional error strings the flow loop tests
with plain `if x:`. -/
def strTruthy : Option String → Bool
  | some s => !(s == "")
  | none => false

/-- ExecutionContext.update (dict.update): merge the extracted values
into the context. -/
def ctxUpdate (ctx extracted : List (String × Json)) : List (String × Json) :=
  extracted.foldl (fun c kv => dictInsert c kv.1 kv.2) ctx

/-- One iteration of the flow loop (backend/runner.py lines 410-462),
up to but excluding the append and the break test: returns the step
result, the error entries appended during the iteration, and the updated
context.  ex abstracts run_test_pipeline (the api_name argument only
decorates reports and is dropped).  The generic except path (line 460)
is unreachable here because every modelled operation is total. -/
def runStep (ex : String → List Rule → TestResult) (ctx : List (String × Json))
    (i : Nat) (step : FlowStep) : StepResult × List FlowError × List (String × Json) :=
  let base : StepResult :=
    { stepIndex := i
      apiId := step.id
      apiName := step.name.getD ("Step " ++ toString (i + 1))
      success := false
      statusCode := none
      responseTimeMs := none
      ruleResults := []
      extractedVars := []
      error := none
      executionId := none
      reportPaths := none }
  match inject_variables step.curl ctx with
  | .error msg => ({ base with error := some msg }, [⟨i, step.name, msg⟩], ctx)
  | .ok curl2 =>
    let tr := ex curl2 step.customRules
    let sr :=
      { base with
          success := tr.success,
          statusCode := tr.status_code,
          responseTimeMs := tr.response_time_ms,
          ruleResults := tr.rule_results,
          executionId := some tr.execution_id,
          reportPaths := some tr.report_paths }
    if strTruthy tr.error then
      ({ sr with error := tr.error }, [⟨i, step.name, tr.error.getD ""⟩], ctx)
    else if !step.extractRules.isEmpty && !tr.response_json.isNull then
      let extracted := extract_from_response tr.response_json step.extractRules
      ({ sr with extractedVars := extracted }, [], ctxUpdate ctx extracted)
    else (sr, [], ctx)

/-- The flow loop (backend/runner.py lines 410-468): append each step's
result, stop as soon as a produced result carries a truthy error. -/
def flowGo (ex : String → List Rule → TestResult) (ctx : List (String × Json))
    (i : Nat) : List FlowStep → List StepResult × List FlowError × List (String × Json)
  | [] => ([], [], ctx)
  | step :: rest =>
    if strTruthy (runStep ex ctx i step).1.error then
      ([(runStep ex ctx i step).1], (runStep ex ctx i step).2.1,
       (runStep ex ctx i step).2.2)
    else
      ((runStep ex ctx i step).1
         :: (flowGo ex (runStep ex ctx i step).2.2 (i + 1) rest).1,
       (runStep ex ctx i step).2.1
         ++ (flowGo ex (runStep ex ctx i step).2.2 (i + 1) rest).2.1,
       (flowGo ex (runStep ex ctx i step).2.2 (i + 1) rest).2.2)

/-- run_flow_pipeline (backend/runner.py lines 378-477): run the steps
over a fresh context and assemble the aggregate result. -/
def run_flow_pipeline (ex : String → List Rule → TestResult)
    (flow_steps : List FlowStep) : FlowResult :=
  let r := flowGo ex [] 0 flow_steps
  { success := r.2.1.isEmpty && r.1.all (fun s => s.success)
    results := r.1
    executionContext := r.2.2
    errors := r.2.1
    totalSteps := flow_steps.length
    completedSteps := r.1.length }

/-- The rule types evaluate_rule dispatches on (the keys of RULE_TYPES). -/
def knownRuleTypes : List String :=
  ["status_code", "success_flag", "field_exists", "field_not_null",
   "field_type", "response_time", "custom_expression"]

/-- Example rule: status code must be 200. -/
def exRuleStatus : Rule :=
  { type := some "status_code", config := [("expectedStatus", Json.num 200)] }

/-- Example rule with a type outside the registry. -/
def exRuleUnknown : Rule :=
  { type := some "unknown_type" }

/-- Example rule: the field id must exist. -/
def exRuleExists : Rule :=
  { type := some "field_exists", field := some "id" }

/-- Example rule: boolean check of the field ok against true. -/
def exRuleFlagTrue : Rule :=
  { type := some "success_flag", field := some "ok",
    config := [("expectedValue", Json.bool true)] }

/-- Example rule: boolean check of the field ok against false. -/
def exRuleFlagFalse : Rule :=
  { type := some "success_flag", field := some "ok",
    config := [("expectedValue", Json.bool false)] }

/-- Example response body for the rule-engine claims. -/
def exResp : Json :=
  Json.obj [("id", Json.num 7), ("ok", Json.num 1)]

/-- Example flow step whose template references the undefined variable
token (the \x7b escapes stand for literal braces). -/
def exStepBad : FlowStep :=
  { name := some "login", curl := "curl https://a.example/{{token}}" }

/-- Example second flow step, never reached in the fail-fast scenario. -/
def exStepTwo : FlowStep :=
  { name := some "profile", curl := "curl https://a.example/profile" }

/-
Theorems.  Each claim Cn of the specification review has exactly one
theorem below (plus a witness or counterexample where required).
-/

/-- A null cursor stays null for the rest of a get_nested_value walk. -/
theorem valueLoop_null (rest : List String) : valueLoop Json.null rest = Json.null := by
  cases rest <;> simp [valueLoop, Json.isNull]

/-- A successful association lookup is a membership. -/
theorem dictGet?_mem {kvs : List (String × Json)} {k : String} {v : Json}
    (h : dictGet? kvs k = some v) : (k, v) ∈ kvs := by
  induction kvs with
  | nil => simp [dictGet?] at h
  | cons kw rest ih =>
    obtain ⟨k1, v1⟩ := kw
    rw [dictGet?] at h
    split at h
    · next heq =>
      cases h
      simp_all
    · exact List.mem_cons_of_mem _ (ih h)

/-- Values of a digit-key-free object are digit-key-free. -/
theorem noDigitKeys_obj_val {kvs : List (String × Json)} {k : String} {v : Json}
    (hnd : noDigitKeys (Json.obj kvs) = true) (h : dictGet? kvs k = some v) :
    noDigitKeys v = true := by
  rw [noDigitKeys] at hnd
  induction kvs with
  | nil => simp [dictGet?] at h
  | cons kw rest ih =>
    obtain ⟨k1, v1⟩ := kw
    rw [noDigitKeysObj] at hnd
    simp only [Bool.and_eq_true] at hnd
    rw [dictGet?] at h
    split at h
    · cases h
      exact hnd.1.2
    · exact ih hnd.2 h

/-- A digit-key-free object has no entry under an all-digit key. -/
theorem noDigitKeys_obj_digit {kvs : List (String × Json)} {k : String}
    (hnd : noDigitKeys (Json.obj kvs) = true) (hd : isDigitStr k = true) :
    dictGet? kvs k = none := by
  rw [noDigitKeys] at hnd
  induction kvs with
  | nil => rfl
  | cons kw rest ih =>
    obtain ⟨k1, v1⟩ := kw
    rw [noDigitKeysObj] at hnd
    simp only [Bool.and_eq_true, Bool.not_eq_true'] at hnd
    rw [dictGet?]
    split
    · next heq =>
      have h1 := hnd.1.1
      rw [heq] at h1
      rw [h1] at hd
      cases hd
    · exact ih hnd.2

/-- Members of a digit-key-free array are digit-key-free. -/
theorem noDigitKeysList_mem {xs : List Json} {x : Json}
    (hnd : noDigitKeysList xs = true) (hmem : x ∈ xs) : noDigitKeys x = true := by
  induction xs with
  | nil => cases hmem
  | cons y rest ih =>
    rw [noDigitKeysList] at hnd
    simp only [Bool.and_eq_true] at hnd
    rcases List.mem_cons.mp hmem with h1 | h1
    · rw [h1]
      exact hnd.1
    · exact ih hnd.2 h1

/-- Elements of a digit-key-free array are digit-key-free. -/
theorem noDigitKeys_arr {xs : List Json} {n : Nat} {x : Json}
    (hnd : noDigitKeys (Json.arr xs) = true) (h : xs.get? n = some x) :
    noDigitKeys x = true := by
  rw [noDigitKeys] at hnd
  exact noDigitKeysList_mem hnd (List.get?_mem h)

/-- int() agrees with the plain digit-string reading on digit strings. -/
theorem pyInt_digit {s : String} (h : isDigitStr s = true) :
    pyInt s = some (digitsVal s.data : Int) := by
  rw [pyInt, if_pos h]

/-- Segmentwise agreement of the two resolvers' loops under the
no-digit-keys and plain-digit-segment side conditions. -/
theorem valueLoop_eq_fieldLoop (parts : List String) :
    ∀ current, noDigitKeys current = true →
    (∀ s ∈ parts, (pyInt s).isSome = true → isDigitStr s = true) →
    valueLoop current parts = (fieldLoop current parts).1 := by
  induction parts with
  | nil =>
    intro current _ _
    rfl
  | cons part rest ih =>
    intro current hnd hseg
    have hseg2 : ∀ s ∈ rest, (pyInt s).isSome = true → isDigitStr s = true :=
      fun s hs => hseg s (List.mem_cons_of_mem _ hs)
    have hpart := hseg part (List.mem_cons_self _ _)
    cases current with
    | null => simp [valueLoop, fieldLoop, Json.isNull]
    | bool b =>
      by_cases hd : isDigitStr part <;> simp [valueLoop, fieldLoop, Json.isNull, hd]
    | num n =>
      by_cases hd : isDigitStr part <;> simp [valueLoop, fieldLoop, Json.isNull, hd]
    | str s =>
      by_cases hd : isDigitStr part <;> simp [valueLoop, fieldLoop, Json.isNull, hd]
    | arr xs =>
      by_cases hd : isDigitStr part
      · have hpy := pyInt_digit hd
        have hneg : ¬((digitsVal part.data : Int) < 0) :=
          Int.not_lt.mpr (Int.natCast_nonneg _)
        cases hg : xs.get? (digitsVal part.data) with
        | some x =>
          have hx := noDigitKeys_arr hnd hg
          rw [List.get?_eq_getElem?] at hg
          simp only [valueLoop, fieldLoop, Json.isNull, hd, hpy, hneg,
            Int.toNat_natCast, List.get?_eq_getElem?, hg, Option.getD_some,
            if_false, ite_false]
          exact ih x hx hseg2
        | none =>
          rw [List.get?_eq_getElem?] at hg
          simp only [valueLoop, fieldLoop, Json.isNull, hd, hpy, hneg,
            Int.toNat_natCast, List.get?_eq_getElem?, hg, Option.getD_none,
            if_false, ite_false]
          simp [valueLoop_null]
      · have hnone : pyInt part = none := by
          cases hp : pyInt part with
          | none => rfl
          | some n =>
            have : isDigitStr part = true := hpart (by simp [hp])
            rw [this] at hd
            exact absurd rfl hd
        simp [valueLoop, fieldLoop, Json.isNull, hd, hnone]
    | obj kvs =>
      by_cases hd : isDigitStr part
      · have hnone := noDigitKeys_obj_digit hnd hd
        simp [valueLoop, fieldLoop, Json.isNull, hd, hnone, valueLoop_null]
      · cases hg : dictGet? kvs part with
        | some v =>
          have hv := noDigitKeys_obj_val hnd hg
          simp only [valueLoop, fieldLoop, Json.isNull, hd, hg]
          simp only [Option.getD_some]
          simp only [Bool.false_eq_true, if_false]
          exact ih v hv hseg2
        | none =>
          simp [valueLoop, fieldLoop, Json.isNull, hd, hg, valueLoop_null]

/-- get_nested_field either reports found or yields exactly (null, false). -/
theorem fieldLoop_cases (parts : List String) :
    ∀ current, (fieldLoop current parts).2 = true ∨ fieldLoop current parts = (Json.null, false) := by
  induction parts with
  | nil =>
    intro current
    left
    rfl
  | cons part rest ih =>
    intro current
    cases current with
    | null => right; rfl
    | bool b =>
      right
      by_cases hd : isDigitStr part <;> simp [fieldLoop, Json.isNull, hd]
    | num n =>
      right
      by_cases hd : isDigitStr part <;> simp [fieldLoop, Json.isNull, hd]
    | str s =>
      right
      by_cases hd : isDigitStr part <;> simp [fieldLoop, Json.isNull, hd]
    | arr xs =>
      by_cases hd : isDigitStr part
      · cases hg : xs.get? (digitsVal part.data) with
        | some x =>
          have hx := ih x
          rw [List.get?_eq_getElem?] at hg
          simpa [fieldLoop, Json.isNull, hd, List.get?_eq_getElem?, hg] using hx
        | none =>
          right
          rw [List.get?_eq_getElem?] at hg
          simp [fieldLoop, Json.isNull, hd, List.get?_eq_getElem?, hg]
      · right
        simp [fieldLoop, Json.isNull, hd]
    | obj kvs =>
      by_cases hd : isDigitStr part
      · right
        simp [fieldLoop, Json.isNull, hd]
      · cases hg : dictGet? kvs part with
        | some v =>
          have hv := ih v
          simpa [fieldLoop, Json.isNull, hd, hg] using hv
        | none =>
          right
          simp [fieldLoop, Json.isNull, hd, hg]

/-- On a not-found report, get_nested_field's value is null (Python None). -/
theorem get_nested_field_not_found (d : Json) (p : String)
    (h : (get_nested_field d p).2 = false) : (get_nested_field d p).1 = Json.null := by
  rw [get_nested_field] at h ⊢
  by_cases hc : (decide (p = "") || d.isNull) = true
  · rw [if_pos hc]
  · rw [if_neg hc] at h ⊢
    rcases fieldLoop_cases (splitDot p) d with h1 | h1
    · rw [h1] at h
      cases h
    · rw [h1]

/-- Claim C7: field-path resolution semantics of get_nested_field: the
two pinned examples resolve({"a":{"b":[1,2,3]}},"a.b.1") = (2, true) and
resolve({}, "a.b") = (null, false); an exhausted path returns the cursor
with found = true; traversal halts with (null, false) on a null cursor,
on an all-digit segment applied to anything but an array with that index
in bounds, on a non-digit segment applied to anything but an object
containing that key, and a not-found report always carries the null
value. -/
theorem c7_field_resolution :
    (get_nested_field
        (Json.obj [("a", Json.obj [("b", Json.arr [Json.num 1, Json.num 2, Json.num 3])])])
        "a.b.1" = (Json.num 2, true))
  ∧ (get_nested_field (Json.obj []) "a.b" = (Json.null, false))
  ∧ (∀ current, fieldLoop current [] = (current, true))
  ∧ (∀ part rest, fieldLoop Json.null (part :: rest) = (Json.null, false))
  ∧ (∀ xs part rest, isDigitStr part = true →
      fieldLoop (Json.arr xs) (part :: rest)
        = (match xs.get? (digitsVal part.data) with
           | some x => fieldLoop x rest
           | none => (Json.null, false)))
  ∧ (∀ kvs part rest, isDigitStr part = false →
      fieldLoop (Json.obj kvs) (part :: rest)
        = (match dictGet? kvs part with
           | some v => fieldLoop v rest
           | none => (Json.null, false)))
  ∧ (∀ xs part rest, isDigitStr part = false →
      fieldLoop (Json.arr xs) (part :: rest) = (Json.null, false))
  ∧ (∀ kvs part rest, isDigitStr part = true →
      fieldLoop (Json.obj kvs) (part :: rest) = (Json.null, false))
  ∧ (∀ n part rest, fieldLoop (Json.num n) (part :: rest) = (Json.null, false))
  ∧ (∀ s part rest, fieldLoop (Json.str s) (part :: rest) = (Json.null, false))
  ∧ (∀ b part rest, fieldLoop (Json.bool b) (part :: rest) = (Json.null, false))
  ∧ (∀ d p, (get_nested_field d p).2 = false → (get_nested_field d p).1 = Json.null) := by
  refine ⟨rfl, rfl, fun current => rfl, fun part rest => rfl, ?_, ?_, ?_, ?_, ?_, ?_, ?_,
    get_nested_field_not_found⟩
  · intro xs part rest hd
    simp [fieldLoop, Json.isNull, hd]
  · intro kvs part rest hd
    simp [fieldLoop, Json.isNull, hd]
  · intro xs part rest hd
    simp [fieldLoop, Json.isNull, hd]
  · intro kvs part rest hd
    simp [fieldLoop, Json.isNull, hd]
  · intro n part rest
    by_cases hd : isDigitStr part <;> simp [fieldLoop, Json.isNull, hd]
  · intro s part rest
    by_cases hd : isDigitStr part <;> simp [fieldLoop, Json.isNull, hd]
  · intro b part rest
    by_cases hd : isDigitStr part <;> simp [fieldLoop, Json.isNull, hd]

/-- Witness for C7 at concrete inputs: a digit segment indexes an array,
and a not-found lookup carries null. -/
theorem c7_field_resolution_witness :
    fieldLoop (Json.arr [Json.num 9]) ["0"] = (Json.num 9, true)
  ∧ (get_nested_field (Json.obj []) "x").1 = Json.null := by
  constructor
  · rw [c7_field_resolution.2.2.2.2.1 [Json.num 9] "0" [] (by decide)]
    rfl
  · exact c7_field_resolution.2.2.2.2.2.2.2.2.2.2.2 (Json.obj []) "x" rfl

/-- Claim C4 counterexample: on the root {"0": 5} and the path "0", the
context resolver returns 5 while the rule-engine resolver reports not
found with value None - the two resolvers are not equivalent up to the
found flag. -/
theorem c4_counterexample :
    get_nested_value (Json.obj [("0", Json.num 5)]) "0" = Json.num 5
  ∧ get_nested_field (Json.obj [("0", Json.num 5)]) "0" = (Json.null, false)
  ∧ Json.num 5 ≠ Json.null := by
  refine ⟨rfl, rfl, ?_⟩
  intro h
  exact Json.noConfusion h

/-- Claim C4 (amended): the two resolvers agree - get_nested_value
returns exactly the value component of get_nested_field (which is null
exactly on a not-found report) - for every nonempty path, provided no
object key anywhere in the root is an all-digit string and no path
segment beyond the plain digit strings parses under int() (no signed or
whitespace-padded numeric segments). -/
theorem c4_resolver_agreement (data : Json) (path : String)
    (h1 : path ≠ "") (h2 : noDigitKeys data = true)
    (h3 : ∀ seg ∈ splitDot path, (pyInt seg).isSome = true → isDigitStr seg = true) :
    get_nested_value data path = (get_nested_field data path).1 := by
  rw [get_nested_value, get_nested_field]
  by_cases hn : data.isNull = true
  · simp [hn]
  · have hc : ¬((decide (path = "") || data.isNull) = true) := by
      simp [h1, hn]
    rw [if_neg hc, if_neg hn]
    exact valueLoop_eq_fieldLoop _ data h2 h3

/-- Witness for C4 (amended) at a concrete root and path. -/
theorem c4_resolver_agreement_witness :
    get_nested_value (Json.obj [("a", Json.arr [Json.num 3, Json.num 4])]) "a.1"
      = (get_nested_field (Json.obj [("a", Json.arr [Json.num 3, Json.num 4])]) "a.1").1 :=
  c4_resolver_agreement _ _ (by decide) (by rfl) (by decide)

/-- Inserting a key makes it present. -/
theorem dictGet?_insert_self (m : List (String × Json)) (k : String) (v : Json) :
    dictGet? (dictInsert m k v) k = some v := by
  induction m with
  | nil => simp [dictInsert, dictGet?]
  | cons kw rest ih =>
    obtain ⟨k1, v1⟩ := kw
    rw [dictInsert]
    split
    · simp [dictGet?]
    · next hne =>
      rw [dictGet?, if_neg hne]
      exact ih

/-- Inserting one key leaves the other keys' lookups unchanged. -/
theorem dictGet?_insert_other (m : List (String × Json)) (k : String) (v : Json)
    (k2 : String) (h : k ≠ k2) :
    dictGet? (dictInsert m k v) k2 = dictGet? m k2 := by
  induction m with
  | nil => simp [dictInsert, dictGet?, h]
  | cons kw rest ih =>
    obtain ⟨k1, v1⟩ := kw
    rw [dictInsert]
    split
    · next heq =>
      subst heq
      rw [dictGet?, if_neg h, dictGet?, if_neg h]
    · rw [dictGet?, dictGet?]
      split
      · rfl
      · exact ih

/-- A key present in the accumulator stays present through extractLoop. -/
theorem extractLoop_preserves (resp : Json) (rules : List ExtractRule) :
    ∀ acc k, dictGet? acc k ≠ none → dictGet? (extractLoop resp acc rules) k ≠ none := by
  induction rules with
  | nil =>
    intro acc k h
    exact h
  | cons r rest ih =>
    intro acc k h
    rw [extractLoop]
    split
    · exact ih acc k h
    · split
      · exact ih acc k h
      · apply ih
        by_cases he : r.varName = k
        · subst he
          rw [dictGet?_insert_self]
          simp
        · rw [dictGet?_insert_other _ _ _ _ he]
          exact h

/-- Every rule with a nonempty path and variable whose path resolves to
a non-null value ends up with an entry. -/
theorem extractLoop_found (resp : Json) (rules : List ExtractRule) :
    ∀ acc r, r ∈ rules → r.path ≠ "" → r.varName ≠ "" →
      (get_nested_value resp r.path).isNull = false →
      dictGet? (extractLoop resp acc rules) r.varName ≠ none := by
  induction rules with
  | nil =>
    intro acc r hmem
    cases hmem
  | cons r0 rest ih =>
    intro acc r hmem hp hv hnn
    rcases List.mem_cons.mp hmem with heq | hmem2
    · subst heq
      rw [extractLoop]
      split
      · next hskip =>
        rcases hskip with h1 | h1
        · exact absurd h1 hp
        · exact absurd h1 hv
      · split
        · next hnull =>
          rw [hnn] at hnull
          cases hnull
        · apply extractLoop_preserves
          rw [dictGet?_insert_self]
          simp
    · rw [extractLoop]
      split
      · exact ih acc r hmem2 hp hv hnn
      · split
        · exact ih acc r hmem2 hp hv hnn
        · exact ih _ r hmem2 hp hv hnn

/-- Every entry of the extraction result is either inherited from the
accumulator or produced by some rule whose path resolved non-null. -/
theorem extractLoop_provenance (resp : Json) (rules : List ExtractRule) :
    ∀ acc nm v, dictGet? (extractLoop resp acc rules) nm = some v →
      dictGet? acc nm = some v ∨
        ∃ r ∈ rules, r.varName = nm ∧ r.path ≠ "" ∧
          get_nested_value resp r.path = v ∧ v.isNull = false := by
  induction rules with
  | nil =>
    intro acc nm v h
    exact Or.inl h
  | cons r0 rest ih =>
    intro acc nm v h
    rw [extractLoop] at h
    split at h
    · rcases ih acc nm v h with h1 | ⟨r, hr, hrest⟩
      · exact Or.inl h1
      · exact Or.inr ⟨r, List.mem_cons_of_mem _ hr, hrest⟩
    · next hskip =>
      split at h
      · rcases ih acc nm v h with h1 | ⟨r, hr, hrest⟩
        · exact Or.inl h1
        · exact Or.inr ⟨r, List.mem_cons_of_mem _ hr, hrest⟩
      · next hnull =>
        rcases ih _ nm v h with h1 | ⟨r, hr, hrest⟩
        · by_cases he : r0.varName = nm
          · subst he
            rw [dictGet?_insert_self] at h1
            cases h1
            refine Or.inr ⟨r0, List.mem_cons_self _ _, rfl, ?_, rfl, ?_⟩
            · intro hp
              exact hskip (Or.inl hp)
            · simp only [Bool.not_eq_true] at hnull
              exact hnull
          · rw [dictGet?_insert_other _ _ _ _ he] at h1
            exact Or.inl h1
        · exact Or.inr ⟨r, List.mem_cons_of_mem _ hr, hrest⟩

/-- When every rule is skipped or resolves to null, nothing is added. -/
theorem extractLoop_all_skip (resp : Json) (rules : List ExtractRule) :
    ∀ acc, (∀ r ∈ rules, r.path = "" ∨ r.varName = "" ∨
      (get_nested_value resp r.path).isNull = true) →
      extractLoop resp acc rules = acc := by
  induction rules with
  | nil =>
    intro acc _
    rfl
  | cons r0 rest ih =>
    intro acc hall
    have h0 := hall r0 (List.mem_cons_self _ _)
    have hrest : ∀ r ∈ rest, r.path = "" ∨ r.varName = "" ∨
        (get_nested_value resp r.path).isNull = true :=
      fun r hr => hall r (List.mem_cons_of_mem _ hr)
    rw [extractLoop]
    split
    · exact ih acc hrest
    · next hskip =>
      split
      · exact ih acc hrest
      · next hnull =>
        exfalso
        rcases h0 with h1 | h1 | h1
        · exact hskip (Or.inl h1)
        · exact hskip (Or.inr h1)
        · exact hnull (by rw [h1])

/-- Claim C5 counterexample: on the response body with a null field a,
the field resolver finds the path "a" (found = true, value null), yet
extractVariables returns the empty map - there is no entry for a rule
whose path is found, refuting the claim as stated. -/
theorem c5_counterexample :
    extract_from_response (Json.obj [("a", Json.null)]) [{ path := "a", varName := "x" }] = []
  ∧ get_nested_field (Json.obj [("a", Json.null)]) "a" = (Json.null, true) :=
  ⟨rfl, rfl⟩

/-- Claim C5 (amended): extractVariables resolves each rule's path with
the context resolver get_nested_value and returns a map with an entry
for every rule with nonempty path and variable name whose path resolves
to a non-null value; every entry comes from such a rule; rules whose
path is not found or resolves to null (and rules with an empty path or
variable name) contribute nothing; no input raises (the function is
total by construction). -/
theorem c5_extraction (resp : Json) (rules : List ExtractRule) :
    (∀ r ∈ rules, r.path ≠ "" → r.varName ≠ "" →
       (get_nested_value resp r.path).isNull = false →
       dictGet? (extract_from_response resp rules) r.varName ≠ none)
  ∧ (∀ nm v, dictGet? (extract_from_response resp rules) nm = some v →
       ∃ r ∈ rules, r.varName = nm ∧ r.path ≠ "" ∧
         get_nested_value resp r.path = v ∧ v.isNull = false)
  ∧ ((∀ r ∈ rules, r.path = "" ∨ r.varName = "" ∨
        (get_nested_value resp r.path).isNull = true) →
       extract_from_response resp rules = []) := by
  refine ⟨?_, ?_, ?_⟩
  · intro r hmem hp hv hnn
    exact extractLoop_found resp rules [] r hmem hp hv hnn
  · intro nm v h
    rcases extractLoop_provenance resp rules [] nm v h with h1 | h1
    · simp [dictGet?] at h1
    · exact h1
  · intro hall
    exact extractLoop_all_skip resp rules [] hall

/-- Witness for C5 (amended) at a concrete response and rule list. -/
theorem c5_extraction_witness :
    dictGet? (extract_from_response (Json.obj [("b", Json.num 2)])
      [{ path := "b", varName := "y" }]) "y" ≠ none :=
  (c5_extraction (Json.obj [("b", Json.num 2)]) [{ path := "b", varName := "y" }]).1
    { path := "b", varName := "y" } (List.mem_cons_self _ _)
    (by decide) (by decide) (by rfl)

/-- When every placeholder of the token stream is in the context, the
substitution succeeds. -/
theorem renderToks_ok_of (ctx : List (String × Json)) :
    ∀ ts : List Tok, (∀ n ∈ toksVars ts, ctxHas ctx n = true) →
      ∃ s, renderToks ctx ts = .ok s := by
  intro ts
  induction ts with
  | nil =>
    intro _
    exact ⟨"", rfl⟩
  | cons t ts ih =>
    intro hall
    cases t with
    | lit c =>
      have hrest : ∀ n ∈ toksVars ts, ctxHas ctx n = true := by
        intro n hn
        exact hall n (by rw [toksVars]; exact hn)
      obtain ⟨s, hs⟩ := ih hrest
      exact ⟨String.singleton c ++ s, by rw [renderToks, renderTok, hs]⟩
    | phvar n =>
      have hn : ctxHas ctx n = true := hall n (by rw [toksVars]; exact List.mem_cons_self _ _)
      rw [ctxHas, Option.isSome_iff_exists] at hn
      obtain ⟨v, hv⟩ := hn
      have hrest : ∀ m ∈ toksVars ts, ctxHas ctx m = true := by
        intro m hm
        exact hall m (by rw [toksVars]; exact List.mem_cons_of_mem _ hm)
      obtain ⟨s, hs⟩ := ih hrest
      exact ⟨injectRender v ++ s, by rw [renderToks, renderTok, hv, hs]⟩

/-- A successful substitution implies every placeholder resolved. -/
theorem renderToks_vars_of_ok (ctx : List (String × Json)) :
    ∀ (ts : List Tok) (s : String), renderToks ctx ts = .ok s →
      ∀ n ∈ toksVars ts, ctxHas ctx n = true := by
  intro ts
  induction ts with
  | nil =>
    intro s _ n hn
    rw [toksVars] at hn
    cases hn
  | cons t ts ih =>
    intro s h n hn
    cases t with
    | lit c =>
      rw [renderToks, renderTok] at h
      rw [toksVars] at hn
      cases hr : renderToks ctx ts with
      | error e =>
        rw [hr] at h
        cases h
      | ok s2 => exact ih s2 hr n hn
    | phvar m =>
      rw [renderToks, renderTok] at h
      rw [toksVars] at hn
      cases hv : dictGet? ctx m with
      | none =>
        rw [hv] at h
        cases h
      | some v =>
        rw [hv] at h
        rcases List.mem_cons.mp hn with he | hrest
        · subst he
          rw [ctxHas, hv]
          rfl
        · cases hr : renderToks ctx ts with
          | error e =>
            rw [hr] at h
            cases h
          | ok s2 => exact ih s2 hr n hrest

/-- A failed substitution names an unresolved placeholder of the stream
with the exact ValueError message. -/
theorem renderToks_error_names (ctx : List (String × Json)) :
    ∀ (ts : List Tok) (m : String), renderToks ctx ts = .error m →
      ∃ n, n ∈ toksVars ts ∧ ctxHas ctx n = false ∧
        m = "Variable '" ++ n ++ "' not found in execution context" := by
  intro ts
  induction ts with
  | nil =>
    intro m h
    cases h
  | cons t ts ih =>
    intro m h
    cases t with
    | lit c =>
      rw [renderToks, renderTok] at h
      cases hr : renderToks ctx ts with
      | error e =>
        rw [hr] at h
        cases h
        obtain ⟨n, hn, hh, hm⟩ := ih m hr
        exact ⟨n, by rw [toksVars]; exact hn, hh, hm⟩
      | ok s2 =>
        rw [hr] at h
        cases h
    | phvar nm =>
      rw [renderToks, renderTok] at h
      cases hv : dictGet? ctx nm with
      | none =>
        rw [hv] at h
        cases h
        refine ⟨nm, by rw [toksVars]; exact List.mem_cons_self _ _, ?_, rfl⟩
        rw [ctxHas, hv]
        rfl
      | some v =>
        rw [hv] at h
        cases hr : renderToks ctx ts with
        | error e =>
          rw [hr] at h
          cases h
          obtain ⟨n, hn, hh, hm⟩ := ih m hr
          exact ⟨n, by rw [toksVars]; exact List.mem_cons_of_mem _ hn, hh, hm⟩
        | ok s2 =>
          rw [hr] at h
          cases h

/-- Membership in the deduplicated list. -/
theorem dedupAcc_mem (n : String) :
    ∀ (l seen : List String), n ∈ dedupAcc seen l ↔ (n ∈ l ∧ n ∉ seen) := by
  intro l
  induction l with
  | nil =>
    intro seen
    simp [dedupAcc]
  | cons x xs ih =>
    intro seen
    rw [dedupAcc]
    split
    · next hc =>
      have hx : x ∈ seen := by
        have := List.elem_iff.mp hc
        exact this
      rw [ih]
      simp only [List.mem_cons]
      constructor
      · rintro ⟨h1, h2⟩
        exact ⟨Or.inr h1, h2⟩
      · rintro ⟨h1 | h1, h2⟩
        · subst h1
          exact absurd hx h2
        · exact ⟨h1, h2⟩
    · next hc =>
      have hx : x ∉ seen := by
        intro hmem
        exact hc (List.elem_iff.mpr hmem)
      simp only [List.mem_cons, ih]
      constructor
      · rintro (h1 | ⟨h1, h2⟩)
        · subst h1
          exact ⟨Or.inl rfl, hx⟩
        · refine ⟨Or.inr h1, fun hs => h2 (Or.inr hs)⟩
      · rintro ⟨h1 | h1, h2⟩
        · subst h1
          exact Or.inl rfl
        · by_cases he : n = x
          · subst he
            exact Or.inl rfl
          · refine Or.inr ⟨h1, ?_⟩
            rintro (h3 | h3)
            · exact he h3
            · exact h2 h3

/-- find_variables_in_text has the same members as the raw occurrence
list. -/
theorem find_variables_mem (text : String) (n : String) :
    n ∈ find_variables_in_text text ↔ n ∈ findVarsAll text := by
  rw [find_variables_in_text, dedupAcc_mem]
  simp

/-- Claim C2: variable injection is all-or-nothing.  Substitution
succeeds exactly when every placeholder identifier of the template is
present in the context; a failure carries the UnresolvedVariableError
message naming an absent identifier and produces no text at all (the
Except carries no partial result); and on success every placeholder is
replaced by the stored value's string form - witnessed concretely with a
number, a string and a dict value (the dict serialized as JSON text).
The \x7b/\x7d escapes in the examples stand for literal braces. -/
theorem c2_inject_all_or_nothing :
    (∀ (text : String) (ctx : List (String × Json)),
       (∃ s, inject_variables text ctx = .ok s) ↔
         ∀ n ∈ find_variables_in_text text, ctxHas ctx n = true)
  ∧ (∀ (text : String) (ctx : List (String × Json)) (m : String),
       inject_variables text ctx = .error m →
         ∃ n, n ∈ find_variables_in_text text ∧ ctxHas ctx n = false ∧
           m = "Variable '" ++ n ++ "' not found in execution context")
  ∧ inject_variables "x=\x7b\x7ba\x7d\x7d&y=\x7b\x7bb\x7d\x7d"
      [("a", Json.num 5), ("b", Json.str "hi")] = .ok "x=5&y=hi"
  ∧ inject_variables "d=\x7b\x7bd\x7d\x7d" [("d", Json.obj [("k", Json.num 1)])]
      = .ok "d=\x7b\"k\": 1\x7d"
  ∧ inject_variables "x=\x7b\x7ba\x7d\x7d" []
      = .error "Variable 'a' not found in execution context" := by
  refine ⟨?_, ?_, rfl, rfl, rfl⟩
  · intro text ctx
    constructor
    · rintro ⟨s, hs⟩ n hn
      exact renderToks_vars_of_ok ctx _ s hs n ((find_variables_mem text n).mp hn)
    · intro hall
      apply renderToks_ok_of
      intro n hn
      exact hall n ((find_variables_mem text n).mpr hn)
  · intro text ctx m h
    obtain ⟨n, hn, hh, hm⟩ := renderToks_error_names ctx _ m h
    exact ⟨n, (find_variables_mem text n).mpr hn, hh, hm⟩

/-- Witness for C2 at a concrete template and context. -/
theorem c2_inject_all_or_nothing_witness :
    ∃ s, inject_variables "u=\x7b\x7bid\x7d\x7d" [("id", Json.num 3)] = .ok s :=
  (c2_inject_all_or_nothing.1 "u=\x7b\x7bid\x7d\x7d" [("id", Json.num 3)]).mpr
    (by decide)

/-- The batch evaluator is exactly filter-enabled-then-map. -/
theorem apply_dynamic_rules_eq (rules : List Rule) (resp : Json) (t : Rat) (sc : Int) :
    apply_dynamic_rules rules resp t sc
      = (rules.filter (fun r => r.enabled.getD true)).map
          (fun r => evaluate_rule r resp t sc) := by
  rw [apply_dynamic_rules]
  suffices h : ∀ acc, List.foldl
      (fun results rule =>
        if rule.enabled.getD true then results ++ [evaluate_rule rule resp t sc]
        else results) acc rules
      = acc ++ (rules.filter (fun r => r.enabled.getD true)).map
          (fun r => evaluate_rule r resp t sc) by
    simpa using h []
  induction rules with
  | nil =>
    intro acc
    simp
  | cons r rest ih =>
    intro acc
    rw [List.foldl_cons]
    by_cases he : r.enabled.getD true = true
    · simp [he, ih, List.filter_cons]
    · simp [he, ih, List.filter_cons]

/-- An unrecognized rule type degrades to a FAIL result with the
sentinel reason, instead of raising. -/
theorem evaluate_rule_unknown (r : Rule) (resp : Json) (t : Rat) (sc : Int)
    (ty : String) (hty : r.type = some ty) (hmem : ty ∉ knownRuleTypes) :
    (evaluate_rule r resp t sc).result = "FAIL" ∧
    (evaluate_rule r resp t sc).reason = some ("Unknown rule type: " ++ ty) := by
  have h1 : ¬(ty = "status_code") := fun h => hmem (by rw [h]; decide)
  have h2 : ¬(ty = "success_flag") := fun h => hmem (by rw [h]; decide)
  have h3 : ¬(ty = "field_exists") := fun h => hmem (by rw [h]; decide)
  have h4 : ¬(ty = "field_not_null") := fun h => hmem (by rw [h]; decide)
  have h5 : ¬(ty = "field_type") := fun h => hmem (by rw [h]; decide)
  have h6 : ¬(ty = "response_time") := fun h => hmem (by rw [h]; decide)
  have h7 : ¬(ty = "custom_expression") := fun h => hmem (by rw [h]; decide)
  simp only [evaluate_rule, hty, Option.some.injEq]
  rw [if_neg h1, if_neg h2, if_neg h3, if_neg h4, if_neg h5, if_neg h6, if_neg h7]
  exact ⟨rfl, rfl⟩

/-- Claim C1: batch rule evaluation is fault-isolated and
order-preserving.  evaluateAll returns exactly one result per enabled
rule, in the input order (it is the filter-then-map of the total
function evaluate_rule, whose except clause - modelled by the total
error arms - converts internal faults into FAIL results, so no rule can
abort the batch); an unrecognized type yields a FAIL result carrying the
diagnostic reason; and the concrete 3-rule list with one unknown type in
the middle yields exactly 3 results, PASS/FAIL/PASS, with the unknown
one's reason naming the type. -/
theorem c1_batch_isolation :
    (∀ (rules : List Rule) (resp : Json) (t : Rat) (sc : Int),
       apply_dynamic_rules rules resp t sc
         = (rules.filter (fun r => r.enabled.getD true)).map
             (fun r => evaluate_rule r resp t sc))
  ∧ (∀ (r : Rule) (resp : Json) (t : Rat) (sc : Int) (ty : String),
       r.type = some ty → ty ∉ knownRuleTypes →
         (evaluate_rule r resp t sc).result = "FAIL" ∧
         (evaluate_rule r resp t sc).reason = some ("Unknown rule type: " ++ ty))
  ∧ (apply_dynamic_rules [exRuleStatus, exRuleUnknown, exRuleExists] exResp 100 200).length = 3
  ∧ (apply_dynamic_rules [exRuleStatus, exRuleUnknown, exRuleExists] exResp 100 200).map
      (fun rr => rr.result) = ["PASS", "FAIL", "PASS"]
  ∧ ((apply_dynamic_rules [exRuleStatus, exRuleUnknown, exRuleExists] exResp 100 200).get? 1).map
      (fun rr => rr.reason) = some (some "Unknown rule type: unknown_type") :=
  ⟨apply_dynamic_rules_eq, evaluate_rule_unknown, rfl, rfl, rfl⟩

/-- Witness for C1 at a concrete rule with an unknown type. -/
theorem c1_batch_isolation_witness :
    (evaluate_rule exRuleUnknown exResp 100 200).result = "FAIL" ∧
    (evaluate_rule exRuleUnknown exResp 100 200).reason
      = some ("Unknown rule type: " ++ "unknown_type") :=
  c1_batch_isolation.2.1 exRuleUnknown exResp 100 200 "unknown_type" rfl (by decide)

/-- Claim C9: the success_flag rule compares with Python ==, under which
booleans equal their numeric values: the number 1 passes against
expected true and the number 0 passes against expected false, although
such a field value is a number, not a boolean; a number other than 0/1
still fails. -/
theorem c9_success_flag_loose_numeric :
    (evaluate_rule exRuleFlagTrue (Json.obj [("ok", Json.num 1)]) 100 200).result = "PASS"
  ∧ (evaluate_rule exRuleFlagFalse (Json.obj [("ok", Json.num 0)]) 100 200).result = "PASS"
  ∧ get_type_name (Json.num 1) = "number"
  ∧ (evaluate_rule exRuleFlagTrue (Json.obj [("ok", Json.num 2)]) 100 200).result = "FAIL" :=
  ⟨rfl, rfl, rfl, rfl⟩

/-- Every skipped flag starts with a dash. -/
theorem mem_skipFlags_dash : ∀ s ∈ skipFlags, startsWithStr s "-" = true := by decide

/-- A token that does not start with a dash is none of the recognized
flags, so it falls through to the URL branch of the loop. -/
theorem not_dash_not_flag {t : String} (h : startsWithStr t "-" = false) :
    t ≠ "-X" ∧ t ≠ "--request" ∧ t ≠ "-H" ∧ t ≠ "--header" ∧
    t ≠ "-d" ∧ t ≠ "--data" ∧ t ≠ "--data-raw" ∧ t ≠ "--data-binary" ∧
    t ≠ "--json" ∧ t ≠ "-k" ∧ t ≠ "--insecure" ∧ t ∉ skipFlags ∧
    t ≠ "-A" ∧ t ≠ "--user-agent" := by
  refine ⟨?_, ?_, ?_, ?_, ?_, ?_, ?_, ?_, ?_, ?_, ?_, ?_, ?_, ?_⟩
  all_goals first
    | (intro he; subst he; exact absurd h (by decide))
    | (intro hmem
       have h2 := mem_skipFlags_dash t hmem
       rw [h2] at h
       cases h)

/-- parseStep only ever drops tokens: the remaining list is drawn from
the rest of the input. -/
theorem parseStep_tokens_sub (st : CurlRequest) (t : String) (rest : List String) :
    ∀ x ∈ (parseStep st t rest).2, x ∈ rest := by
  intro x hx
  rw [parseStep.eq_def] at hx
  repeat' split at hx
  all_goals first
    | exact hx
    | exact List.mem_cons_of_mem _ hx
    | exact List.mem_of_mem_tail hx

/-- One parser step other than -X or --request keeps the method in the
GET/POST range and keeps method = POST whenever a body is recorded. -/
theorem parseStep_post (st : CurlRequest) (t : String) (rest : List String)
    (htX : t ≠ "-X") (htR : t ≠ "--request")
    (hm : st.method = "GET" ∨ st.method = "POST")
    (hd : st.data.isSome = true → st.method = "POST") :
    ((parseStep st t rest).1.method = "GET" ∨ (parseStep st t rest).1.method = "POST") ∧
    ((parseStep st t rest).1.data.isSome = true → (parseStep st t rest).1.method = "POST") := by
  rw [parseStep.eq_def]
  rw [if_neg (by simp [htX, htR])]
  repeat' split
  all_goals first
    | exact ⟨hm, hd⟩
    | (refine ⟨?_, fun _ => ?_⟩ <;> rcases hm with h1 | h1 <;> simp_all)

/-- Without an explicit -X or --request token the parser's method stays
in the GET/POST range and is POST whenever a body has been recorded. -/
theorem parseLoop_post_invariant :
    ∀ (fuel : Nat) (tokens : List String) (st : CurlRequest),
      "-X" ∉ tokens → "--request" ∉ tokens →
      (st.method = "GET" ∨ st.method = "POST") →
      (st.data.isSome = true → st.method = "POST") →
      ((parseLoop fuel st tokens).method = "GET" ∨
        (parseLoop fuel st tokens).method = "POST") ∧
      ((parseLoop fuel st tokens).data.isSome = true →
        (parseLoop fuel st tokens).method = "POST") := by
  intro fuel
  induction fuel with
  | zero =>
    intro tokens st _ _ hm hd
    cases tokens with
    | nil => exact ⟨hm, hd⟩
    | cons t rest => exact ⟨hm, hd⟩
  | succ fuel ih =>
    intro tokens st hX hR hm hd
    cases tokens with
    | nil => exact ⟨hm, hd⟩
    | cons t rest =>
      have hXr : "-X" ∉ rest := fun hmem => hX (List.mem_cons_of_mem _ hmem)
      have hRr : "--request" ∉ rest := fun hmem => hR (List.mem_cons_of_mem _ hmem)
      simp only [parseLoop]
      have hps := parseStep_post st t rest
        (fun he => hX (by rw [← he]; exact List.mem_cons_self _ _))
        (fun he => hR (by rw [← he]; exact List.mem_cons_self _ _)) hm hd
      exact ih _ _ (fun hmem => hXr (parseStep_tokens_sub st t rest _ hmem))
        (fun hmem => hRr (parseStep_tokens_sub st t rest _ hmem)) hps.1 hps.2

/-- No parser step ever clears a recorded body. -/
theorem parseStep_data_mono (st : CurlRequest) (t : String) (rest : List String)
    (h : st.data.isSome = true) : (parseStep st t rest).1.data.isSome = true := by
  rw [parseStep.eq_def]
  repeat' split
  all_goals first
    | exact h
    | rfl

/-- The parser loop never clears a recorded body. -/
theorem parseLoop_data_mono :
    ∀ (fuel : Nat) (tokens : List String) (st : CurlRequest),
      st.data.isSome = true → (parseLoop fuel st tokens).data.isSome = true := by
  intro fuel
  induction fuel with
  | zero =>
    intro tokens st h
    cases tokens with
    | nil => exact h
    | cons t rest => exact h
  | succ fuel ih =>
    intro tokens st h
    cases tokens with
    | nil => exact h
    | cons t rest =>
      simp only [parseLoop]
      exact ih _ _ (parseStep_data_mono st t rest h)

/-- A bare token that looks like a URL sets the url field, with https://
prepended when no scheme is present, and consumes nothing else. -/
theorem parseStep_url (st : CurlRequest) (t : String) (rest : List String)
    (hdash : startsWithStr t "-" = false)
    (hurl : (startsWithStr t "http://" || startsWithStr t "https://" ||
      t.data.contains '.') = true) :
    parseStep st t rest =
      ({ st with
           url := some (if startsWithStr t "http://" || startsWithStr t "https://" then t
                        else "https://" ++ t) }, rest) := by
  obtain ⟨n1, n2, n3, n4, n5, n6, n7, n8, n9, n10, n11, n12, n13, n14⟩ :=
    not_dash_not_flag hdash
  rw [parseStep.eq_def]
  rw [if_neg (by simp [n1, n2]), if_neg (by simp [n3, n4]),
    if_neg (by simp [n5, n6, n7, n8]), if_neg n9, if_neg (by simp [n10, n11]),
    if_neg n12, if_neg (by simp [n13, n14]), if_pos (by simp [hdash]), if_pos hurl]

/-- Claim C6: a body option promotes the method to POST.  Token lists
without an explicit -X or --request token can only produce a descriptor
whose method is POST whenever a body was recorded (never GET with a
body); a recorded body is never cleared by later tokens, so any run
whose -d option fires ends with a body and hence with method POST; the
generic shape -d payload url parses to method POST with the payload as
the body; and the concrete command line with -d and no -X parses to
POST. -/
theorem c6_data_implies_post :
    (∀ tokens : List String, "-X" ∉ tokens → "--request" ∉ tokens →
       (parseLoop tokens.length {} tokens).data.isSome = true →
       (parseLoop tokens.length {} tokens).method = "POST")
  ∧ (∀ (fuel : Nat) (tokens : List String) (st : CurlRequest),
       st.data.isSome = true → (parseLoop fuel st tokens).data.isSome = true)
  ∧ (∀ payload host : String, startsWithStr host "-" = false →
       (startsWithStr host "http://" || startsWithStr host "https://" ||
         host.data.contains '.') = true →
       parseLoop 3 {} ["-d", payload, host]
         = { method := "POST",
             url := some (if startsWithStr host "http://" || startsWithStr host "https://"
                          then host else "https://" ++ host),
             headers := [], data := some payload, verify_ssl := true })
  ∧ parse_curl "curl -d 'a=1' example.com"
      = .ok { method := "POST", url := some "https://example.com", headers := [],
              data := some "a=1", verify_ssl := true } := by
  refine ⟨?_, parseLoop_data_mono, ?_, rfl⟩
  · intro tokens hX hR
    exact (parseLoop_post_invariant tokens.length tokens {} hX hR (Or.inl rfl)
      (fun h => absurd h (by decide))).2
  · intro payload host hdash hurl
    rw [show parseLoop 3 {} ["-d", payload, host]
        = parseLoop 1
            (parseStep ⟨"POST", none, [], some payload, true⟩ host []).1
            (parseStep ⟨"POST", none, [], some payload, true⟩ host []).2 from rfl,
      parseStep_url _ _ _ hdash hurl]
    rfl

/-- Witness for C6 at a concrete payload and host. -/
theorem c6_data_implies_post_witness :
    parseLoop 3 {} ["-d", "p=1", "api.io"]
      = { method := "POST", url := some "https://api.io", headers := [],
          data := some "p=1", verify_ssl := true } := by
  have h := c6_data_implies_post.2.2.1 "p=1" "api.io" (by decide) (by decide)
  simpa using h

/-- Claim C8: parse("curl example.com") yields https://example.com, GET,
empty headers, no body; in general a bare token not starting with a dash
that has a scheme or contains a dot becomes the URL, with https://
filled in when the scheme is missing. -/
theorem c8_parse_bare_url :
    parse_curl "curl example.com"
      = .ok { method := "GET", url := some "https://example.com", headers := [],
              data := none, verify_ssl := true }
  ∧ (∀ (st : CurlRequest) (t : String) (fuel : Nat),
       startsWithStr t "-" = false →
       (startsWithStr t "http://" || startsWithStr t "https://" ||
         t.data.contains '.') = true →
       (parseLoop (fuel + 1) st [t]).url
         = some (if startsWithStr t "http://" || startsWithStr t "https://" then t
                 else "https://" ++ t)) := by
  refine ⟨rfl, ?_⟩
  intro st t fuel hdash hurl
  rw [show parseLoop (fuel + 1) st [t]
      = parseLoop fuel (parseStep st t []).1 (parseStep st t []).2 from rfl,
    parseStep_url _ _ _ hdash hurl]
  cases fuel <;> rfl

/-- Witness for C8's general URL clause at a concrete token. -/
theorem c8_parse_bare_url_witness :
    (parseLoop 1 {} ["example.com"]).url = some "https://example.com" := by
  have h := c8_parse_bare_url.2 {} "example.com" 0 (by decide) (by decide)
  simpa using h

/-- The unresolved-variable message is never the empty string, so the
loop's truthiness test on it always breaks the flow. -/
theorem inject_error_ne (text : String) (ctx : List (String × Json)) (m : String)
    (h : inject_variables text ctx = .error m) : m ≠ "" := by
  obtain ⟨n, _, _, hm⟩ := renderToks_error_names ctx _ m h
  subst hm
  intro he
  have hdata : (("Variable '" ++ n) ++ "' not found in execution context").data
      = ("" : String).data := by rw [← he]
  simp only [String.data_append] at hdata
  simp at hdata

/-- Each step result either carries no error or carries a truthy one. -/
theorem runStep_error_cases (ex : String → List Rule → TestResult)
    (ctx : List (String × Json)) (i : Nat) (step : FlowStep) :
    ((runStep ex ctx i step).1.error = none ∧ (runStep ex ctx i step).2.1 = []) ∨
    (strTruthy (runStep ex ctx i step).1.error = true ∧
      (runStep ex ctx i step).2.1.length = 1) := by
  rw [runStep.eq_def]
  cases hinj : inject_variables step.curl ctx with
  | error msg =>
    right
    have hne := inject_error_ne _ _ _ hinj
    constructor
    · simp [strTruthy, hne]
    · rfl
  | ok curl2 =>
    by_cases htr : strTruthy (ex curl2 step.customRules).error = true
    · right
      refine ⟨?_, ?_⟩ <;> simp [htr]
    · left
      simp only [htr, if_false]
      by_cases hex : (¬(ex curl2 step.customRules).response_json.isNull = true) ∧
          ¬step.extractRules.isEmpty = true
      · constructor
        · simp only [Bool.not_eq_true] at hex
          simp [hex.1, hex.2]
        · simp only [Bool.not_eq_true] at hex
          simp [hex.1, hex.2]
      · constructor
        · rcases not_and_or.mp hex with h1 | h1 <;>
            simp only [Bool.not_eq_true, not_not] at h1 <;> simp [h1]
        · rcases not_and_or.mp hex with h1 | h1 <;>
            simp only [Bool.not_eq_true, not_not] at h1 <;> simp [h1]

/-- Every produced step result except possibly the last carries no
error: rule FAIL verdicts never mark a step as errored, so they never
shorten the run. -/
theorem flowGo_dropLast_no_error (ex : String → List Rule → TestResult) :
    ∀ (steps : List FlowStep) (ctx : List (String × Json)) (i : Nat),
      ∀ r ∈ ((flowGo ex ctx i steps).1).dropLast, r.error = none := by
  intro steps
  induction steps with
  | nil =>
    intro ctx i r hr
    cases hr
  | cons step rest ih =>
    intro ctx i r hr
    rw [flowGo] at hr
    split at hr
    · simp at hr
    · next hb =>
      have herr : (runStep ex ctx i step).1.error = none := by
        rcases runStep_error_cases ex ctx i step with h1 | h1
        · exact h1.1
        · exact absurd h1.1 hb
      cases hrs : (flowGo ex (runStep ex ctx i step).2.2 (i + 1) rest).1 with
      | nil =>
        rw [hrs] at hr
        simp [List.dropLast_single] at hr
      | cons r2 rs2 =>
        rw [hrs, List.dropLast_cons₂] at hr
        rcases List.mem_cons.mp hr with he | he
        · subst he
          exact herr
        · have := ih (runStep ex ctx i step).2.2 (i + 1) r
          rw [hrs] at this
          exact this he

/-- A run shorter than the step list ends in a result that carries an
error: only an errored step skips the remaining steps. -/
theorem flowGo_stop_error (ex : String → List Rule → TestResult) :
    ∀ (steps : List FlowStep) (ctx : List (String × Json)) (i : Nat),
      (flowGo ex ctx i steps).1.length < steps.length →
      ∃ r, (flowGo ex ctx i steps).1.getLast? = some r ∧ r.error ≠ none := by
  intro steps
  induction steps with
  | nil =>
    intro ctx i h
    cases h
  | cons step rest ih =>
    intro ctx i h
    rw [flowGo] at h ⊢
    split at h
    · next hb =>
      refine ⟨(runStep ex ctx i step).1, ?_, ?_⟩
      · simp [hb]
      · intro hnone
        rw [hnone] at hb
        cases hb
    · next hb =>
      simp only [List.length_cons, Nat.add_lt_add_iff_right] at h
      obtain ⟨r, hlast, herr⟩ := ih (runStep ex ctx i step).2.2 (i + 1) h
      refine ⟨r, ?_, herr⟩
      rw [if_neg hb]
      cases hrs : (flowGo ex (runStep ex ctx i step).2.2 (i + 1) rest).1 with
      | nil =>
        rw [hrs] at hlast
        cases hlast
      | cons r2 rs2 =>
        rw [hrs] at hlast
        show ((runStep ex ctx i step).1 :: r2 :: rs2).getLast? = some r
        rw [List.getLast?_cons_cons]
        exact hlast

/-- The errors list holds exactly one entry per errored step result. -/
theorem flowGo_errors_count (ex : String → List Rule → TestResult) :
    ∀ (steps : List FlowStep) (ctx : List (String × Json)) (i : Nat),
      (flowGo ex ctx i steps).2.1.length
        = ((flowGo ex ctx i steps).1.filter (fun r => r.error.isSome)).length := by
  intro steps
  induction steps with
  | nil =>
    intro ctx i
    rfl
  | cons step rest ih =>
    intro ctx i
    rw [flowGo]
    split
    · next hb =>
      have hsome : (runStep ex ctx i step).1.error.isSome = true := by
        cases he : (runStep ex ctx i step).1.error with
        | none =>
          rw [he] at hb
          cases hb
        | some m => rfl
      rcases runStep_error_cases ex ctx i step with h1 | h1
      · rw [h1.1] at hsome
        cases hsome
      · simp [List.filter_cons, hsome, h1.2]
    · next hb =>
      have herr : (runStep ex ctx i step).1.error = none := by
        rcases runStep_error_cases ex ctx i step with h1 | h1
        · exact h1.1
        · exact absurd h1.1 hb
      have hnil : (runStep ex ctx i step).2.1 = [] := by
        rcases runStep_error_cases ex ctx i step with h1 | h1
        · exact h1.2
        · exact absurd h1.1 hb
      simp [List.filter_cons, herr, hnil, ih (runStep ex ctx i step).2.2 (i + 1)]

/-- A step whose template injection fails produces exactly one result
carrying that error, one error entry, and ends the flow: no later step
runs (the executor is never consulted for them). -/
theorem flowGo_inject_fail (ex : String → List Rule → TestResult)
    (ctx : List (String × Json)) (i : Nat) (step : FlowStep)
    (rest : List FlowStep) (msg : String)
    (h : inject_variables step.curl ctx = .error msg) :
    (flowGo ex ctx i (step :: rest)).1.length = 1 ∧
    (∃ r, (flowGo ex ctx i (step :: rest)).1 = [r] ∧ r.error = some msg) ∧
    (flowGo ex ctx i (step :: rest)).2.1 = [⟨i, step.name, msg⟩] := by
  have hrun : (runStep ex ctx i step).1.error = some msg ∧
      (runStep ex ctx i step).2.1 = [⟨i, step.name, msg⟩] := by
    rw [runStep.eq_def, h]
    exact ⟨rfl, rfl⟩
  have htr : strTruthy (runStep ex ctx i step).1.error = true := by
    rw [hrun.1]
    simp [strTruthy, inject_error_ne _ _ _ h]
  rw [flowGo, if_pos htr]
  exact ⟨rfl, ⟨_, rfl, hrun.1⟩, hrun.2⟩

/-- Claim C3: flow fail-fast.  Every produced step result except
possibly the last carries no error (rule FAIL verdicts never stop the
flow); a run that is shorter than its step list ends in a result that
carries an error (only an error-carrying step skips the remaining
steps); the errors list holds exactly one entry per errored result, so
an injection failure at step k yields exactly one reported error; a
step whose injection raises produces exactly one result recording that
error and ends the loop there; and the concrete two-step flow whose
first template references the undefined variable token completes one
step with exactly one error, never executing step two. -/
theorem c3_flow_fail_fast :
    (∀ (ex : String → List Rule → TestResult) (steps : List FlowStep),
       ∀ r ∈ (run_flow_pipeline ex steps).results.dropLast, r.error = none)
  ∧ (∀ (ex : String → List Rule → TestResult) (steps : List FlowStep),
       (run_flow_pipeline ex steps).results.length < steps.length →
       ∃ r, (run_flow_pipeline ex steps).results.getLast? = some r ∧ r.error ≠ none)
  ∧ (∀ (ex : String → List Rule → TestResult) (steps : List FlowStep),
       (run_flow_pipeline ex steps).errors.length
         = ((run_flow_pipeline ex steps).results.filter (fun r => r.error.isSome)).length)
  ∧ (∀ (ex : String → List Rule → TestResult) (ctx : List (String × Json))
       (i : Nat) (step : FlowStep) (rest : List FlowStep) (msg : String),
       inject_variables step.curl ctx = .error msg →
       (flowGo ex ctx i (step :: rest)).1.length = 1 ∧
       (∃ r, (flowGo ex ctx i (step :: rest)).1 = [r] ∧ r.error = some msg) ∧
       (flowGo ex ctx i (step :: rest)).2.1 = [⟨i, step.name, msg⟩])
  ∧ (∀ ex : String → List Rule → TestResult,
       (run_flow_pipeline ex [exStepBad, exStepTwo]).completedSteps = 1
       ∧ (run_flow_pipeline ex [exStepBad, exStepTwo]).errors.length = 1
       ∧ (run_flow_pipeline ex [exStepBad, exStepTwo]).results.map (fun r => r.error)
           = [some "Variable 'token' not found in execution context"]
       ∧ (run_flow_pipeline ex [exStepBad, exStepTwo]).success = false
       ∧ (run_flow_pipeline ex [exStepBad, exStepTwo]).totalSteps = 2) := by
  refine ⟨?_, ?_, ?_, flowGo_inject_fail, fun ex => ⟨rfl, rfl, rfl, rfl, rfl⟩⟩
  · intro ex steps
    exact flowGo_dropLast_no_error ex steps [] 0
  · intro ex steps
    exact flowGo_stop_error ex steps [] 0
  · intro ex steps
    exact flowGo_errors_count ex steps [] 0

/-- Witness for C3 at a concrete executor and failing step. -/
theorem c3_flow_fail_fast_witness :
    (flowGo (fun _ _ => {}) [] 0 [exStepBad]).1.length = 1 :=
  (c3_flow_fail_fast.2.2.2.1 (fun _ _ => {}) [] 0 exStepBad []
    "Variable 'token' not found in execution context" rfl).1

/-- Claim C10: a flow with an empty step list terminates at once with
aggregate success true, no step results, no errors, an empty context
snapshot, and zero completed steps. -/
theorem c10_empty_flow (ex : String → List Rule → TestResult) :
    run_flow_pipeline ex []
      = { success := true, results := [], executionContext := [], errors := [],
          totalSteps := 0, completedSteps := 0 } := rfl
